import Mathlib

/-!
Verification of the tic-tac-toe oracle builder (`src/database/generate_all_states.py`),
the online minimax agent (`src/agents/minimax_agent.py`) and the oracle-backed
perfect agent (`src/agents/perfect_agent.py`), as a shallow embedding in Lean.

Boards are 9-cell lists of marks.  The builder represents an empty cell by the
string "-", the agents by the empty string ""; both are embedded as the single
constructor `Mark.E`, and the two concrete encodings are recovered by `bCell`
(builder) and `aCell` (agent) where the distinction matters (state ids).
Python's in-place mutate-then-restore of the shared board list in the minimax
agent is embedded by explicit state passing: each search function returns the
value together with the board list it leaves behind.
-/

namespace TTT

/-- Logical content of one board cell: `X`, `O`, or empty (`E`).
The builder scripts spell the empty cell "-", the agents spell it "". -/
inductive Mark : Type
  | X
  | O
  | E
  deriving DecidableEq

open Mark

/-! ## Builder: `src/database/generate_all_states.py` -/

/-- `get_win_patterns` from `generate_all_states.py`: 3 rows, 3 columns and the
two diagonals, produced by the same arithmetic as the Python source. -/
def get_win_patterns : List (List Nat) :=
  let size := 3
  let rows := (List.range size).map (fun i => (List.range size).map (fun j => i * size + j))
  let cols := (List.range size).map (fun i => (List.range size).map (fun j => i + j * size))
  let diag1 := [(List.range size).map (fun i => i * (size + 1))]
  let diag2 := [(List.range' 1 size).map (fun i => i * (size - 1))]
  rows ++ cols ++ diag1 ++ diag2

/-- One iteration of the pattern loop in `check_winner`: the pattern's first
cell is non-empty and every other cell of the pattern equals it. -/
def line_wins (board : List Mark) (pattern : List Nat) : Bool :=
  board.getD (pattern.headD 0) E ≠ E &&
  pattern.tail.all (fun i => board.getD (pattern.headD 0) E == board.getD i E)

/-- `check_winner` from `generate_all_states.py`: the owner of the first
winning pattern, scanning `get_win_patterns` in order, else `none`. -/
def check_winner (board : List Mark) : Option Mark :=
  match get_win_patterns.find? (line_wins board) with
  | some pattern => some (board.getD (pattern.headD 0) E)
  | none => none

/-- The mark of the other player: the Python sources compute
`"O" if player == "X" else "X"`. -/
def other : Mark → Mark
  | X => O
  | _ => X

/-- Python's `max(moves, key=fst)`: the first element whose key is maximal
(a later element replaces the current best only when strictly greater). -/
def pyMaxBy : List (Int × Nat) → Option (Int × Nat)
  | [] => none
  | m :: ms => some (ms.foldl (fun best x => if best.1 < x.1 then x else best) m)

/-- Python's `min(moves, key=fst)`: the first element whose key is minimal. -/
def pyMinBy : List (Int × Nat) → Option (Int × Nat)
  | [] => none
  | m :: ms => some (ms.foldl (fun best x => if x.1 < best.1 then x else best) m)

/-- Recursion kernel of `evaluate_state`, with an explicit fuel argument;
`evaluate_state` supplies fuel equal to the number of empty cells, which is
exactly the recursion depth of the Python source, so the fuel-exhausted
branch (returning `(0, none)`) is never reached from `evaluate_state`.
The final `match` mirrors Python's `max`/`min` over the collected
`(score, index)` pairs; its `none` case corresponds to `max`/`min` on an
empty list, unreachable because a non-terminal board has a legal move. -/
def evalFuel (fuel : Nat) (board : List Mark) (next_player : Mark) : Int × Option Nat :=
  let winner := check_winner board
  if winner == some X then (1, none)
  else if winner == some O then (-1, none)
  else if !(board.contains E) then (0, none)
  else
    match fuel with
    | 0 => (0, none)
    | fuel' + 1 =>
      let moves := (List.range board.length).filterMap (fun i =>
        if board.getD i E == E then
          some ((evalFuel fuel' (board.set i next_player) (other next_player)).1, i)
        else none)
      match (if next_player == X then pyMaxBy moves else pyMinBy moves) with
      | some best => (best.1, some best.2)
      | none => (0, none)

/-- `evaluate_state` from `generate_all_states.py`: full-depth minimax value
and best move of `board` with `next_player` to move. -/
def evaluate_state (board : List Mark) (next_player : Mark) : Int × Option Nat :=
  evalFuel (board.count E) board next_player

/-- Builder-side cell encoding: the builder stores boards as lists of the
strings "-", "X", "O". -/
def bCell : Mark → String
  | X => "X"
  | O => "O"
  | E => "-"

/-- `generate_state_id` from `generate_all_states.py`:
`f"{''.join(board)}_{next_player}"` over the builder's string cells. -/
def generate_state_id (board : List Mark) (next_player : Mark) : String :=
  String.join (board.map bCell) ++ "_" ++ bCell next_player

/-- `is_valid_board` from `generate_all_states.py`:
`x_count - o_count in [0, 1]`. -/
def is_valid_board (board : List Mark) : Bool :=
  (board.count X : Int) - (board.count O : Int) == 0 ||
  (board.count X : Int) - (board.count O : Int) == 1

/-- One row of the `board_states` table, as inserted by `generate_all_states`.
`board_state` abstracts the Python `str(board)` column by the board itself
(the serialization is injective and no claim depends on its spelling). -/
structure Row where
  state_id : String
  board_state : List Mark
  next_player : Mark
  best_move : Option Nat
  evaluation : Int
  is_terminal : Bool
  deriving DecidableEq

/-- The builder's mark alphabet `["-", "X", "O"]`, in source order. -/
def marks : List Mark := [E, X, O]

/-- `itertools.product(marks, repeat=n)`: all `n`-tuples, first coordinate
varying slowest, exactly as the Python iterator enumerates them. -/
def product_tuples : Nat → List (List Mark)
  | 0 => [[]]
  | n + 1 => marks.flatMap (fun m => (product_tuples n).map (fun t => m :: t))

/-- Body of the enumeration loop of `generate_all_states` for one board:
skip invalid boards; on a winner or a full board compute the terminal
entry fields but insert nothing (the Python source only executes the
`INSERT` in the non-terminal branch); otherwise evaluate the state and
insert it unless its state id was already processed.  The accumulator is
the table contents so far; the loop's `processed_states` set always equals
the set of state ids of the rows inserted so far (the Python source adds to
the set exactly when it inserts), so it is represented here by
`acc.map Row.state_id`. -/
def buildStep (acc : List Row) (board : List Mark) : List Row :=
  if !(is_valid_board board) then acc
  else
    match check_winner board with
    | some _ => acc
    | none =>
      if !(board.contains E) then acc
      else
        let x_count := board.count X
        let o_count := board.count O
        let next_player := if o_count < x_count then O else X
        let ev := evaluate_state board next_player
        let state_id := generate_state_id board next_player
        if state_id ∈ acc.map Row.state_id then acc
        else acc ++ [⟨state_id, board, next_player, ev.2, ev.1, false⟩]

/-- `generate_all_states` from `generate_all_states.py`, as a function from
the previous table contents to the new ones: the script first drops and
recreates the `board_states` table, so the result ignores the prior store,
then folds the enumeration loop over all 3^9 boards. -/
def generate_all_states (_prior : List Row) : List Row :=
  (product_tuples 9).foldl buildStep []

/-! ## Online agent: `src/agents/minimax_agent.py`

The Python code seeds its search with `-math.inf` / `math.inf` and otherwise
computes only small integers; `XInt` embeds exactly that value space. -/

/-- A float as used by `minimax_agent.py`: minus infinity, a (small) integer
score, or plus infinity. -/
inductive XInt : Type
  | ninf
  | fin (n : Int)
  | pinf
  deriving DecidableEq

/-- Strict comparison on `XInt`, matching float `<`. -/
def xlt : XInt → XInt → Bool
  | XInt.ninf, XInt.ninf => false
  | XInt.ninf, _ => true
  | XInt.fin _, XInt.ninf => false
  | XInt.fin a, XInt.fin b => a < b
  | XInt.fin _, XInt.pinf => true
  | XInt.pinf, _ => false

/-- Non-strict comparison on `XInt`, matching float `<=`. -/
def xle (a b : XInt) : Bool := !(xlt b a)

/-- Python's binary `max` (keeps the first argument on ties). -/
def xmax (a b : XInt) : XInt := if xlt a b then b else a

/-- Python's binary `min` (keeps the first argument on ties). -/
def xmin (a b : XInt) : XInt := if xlt b a then b else a

/-- The eight lines scanned by `MinimaxAgent._evaluate_board`, in the order of
its loops: rows, columns, then the two diagonals. -/
def agentPatterns : List (Nat × Nat × Nat) :=
  [(0,1,2), (3,4,5), (6,7,8), (0,3,6), (1,4,7), (2,5,8), (0,4,8), (2,4,6)]

/-- One step of the scan in `_evaluate_board`: if the three cells of the
pattern are equal and non-empty, return `10` for the player's mark and `-10`
for the opponent's; otherwise (including a line of some third mark) continue
with the remaining patterns, and `0` when the patterns run out. -/
def evalPatterns (board : List Mark) (p o : Mark) : List (Nat × Nat × Nat) → Int
  | [] => 0
  | t :: rest =>
    let x := board.getD t.1 E
    if x == board.getD t.2.1 E && x == board.getD t.2.2 E && x ≠ E then
      if x == p then 10
      else if x == o then -10
      else evalPatterns board p o rest
    else evalPatterns board p o rest

/-- `MinimaxAgent._evaluate_board`. -/
def evaluateBoard (board : List Mark) (p o : Mark) : Int :=
  evalPatterns board p o agentPatterns

/-- `MinimaxAgent._is_moves_left`: some empty cell remains. -/
def movesLeft (board : List Mark) : Bool := board.contains E

mutual

/-- `MinimaxAgent._minimax`, with the shared mutable board embedded by state
passing (the returned list is the board as the Python call leaves it) and an
explicit fuel bounding the recursion depth; `get_moveS` supplies fuel
`board.length`, which the 9-cell game never exhausts, so the fuel-exhausted
branch (returning score 0) is unreachable from `get_move` on 9-cell boards. -/
def minimaxS (fuel : Nat) (board : List Mark) (depth : Nat) (is_max : Bool)
    (alpha beta : XInt) (p o : Mark) : XInt × List Mark :=
  let score := evaluateBoard board p o
  if score == 10 then (XInt.fin (10 - (depth : Int)), board)
  else if score == -10 then (XInt.fin (-10 + (depth : Int)), board)
  else if !(movesLeft board) then (XInt.fin 0, board)
  else
    match fuel with
    | 0 => (XInt.fin 0, board)
    | f + 1 =>
      if is_max then maxLoop f (List.range board.length) board depth alpha beta p o XInt.ninf
      else minLoop f (List.range board.length) board depth alpha beta p o XInt.pinf
termination_by (fuel, 0)

/-- The `for` loop of `MinimaxAgent._maximize` over the indices in `idxs`:
place the player's mark on each empty cell, recurse, restore the cell, raise
`best` and `alpha`, and break as soon as `beta <= alpha`. -/
def maxLoop (fuel : Nat) (idxs : List Nat) (board : List Mark) (depth : Nat)
    (alpha beta : XInt) (p o : Mark) (best : XInt) : XInt × List Mark :=
  match idxs with
  | [] => (best, board)
  | i :: rest =>
    if board.getD i E == E then
      let b1 := board.set i p
      let r := minimaxS fuel b1 (depth + 1) false alpha beta p o
      let b3 := r.2.set i E
      let best1 := xmax best r.1
      let alpha1 := xmax alpha best1
      if xle beta alpha1 then (best1, b3)
      else maxLoop fuel rest b3 depth alpha1 beta p o best1
    else maxLoop fuel rest board depth alpha beta p o best
termination_by (fuel, idxs.length + 1)

/-- The `for` loop of `MinimaxAgent._minimize`: the opponent's mark is placed,
`best` and `beta` are lowered, and the loop breaks as soon as `beta <= alpha`. -/
def minLoop (fuel : Nat) (idxs : List Nat) (board : List Mark) (depth : Nat)
    (alpha beta : XInt) (p o : Mark) (best : XInt) : XInt × List Mark :=
  match idxs with
  | [] => (best, board)
  | i :: rest =>
    if board.getD i E == E then
      let b1 := board.set i o
      let r := minimaxS fuel b1 (depth + 1) true alpha beta p o
      let b3 := r.2.set i E
      let best1 := xmin best r.1
      let beta1 := xmin beta best1
      if xle beta1 alpha then (best1, b3)
      else minLoop fuel rest b3 depth alpha beta1 p o best1
    else minLoop fuel rest board depth alpha beta p o best
termination_by (fuel, idxs.length + 1)

end

/-- The root loop of `MinimaxAgent.get_move`: try every empty cell with fresh
alpha-beta bounds `(-inf, +inf)`, keeping the first strict improvement. -/
def rootLoop (idxs : List Nat) (board : List Mark) (p o : Mark)
    (best_val : XInt) (best_move : Option Nat) : Option Nat × List Mark :=
  match idxs with
  | [] => (best_move, board)
  | i :: rest =>
    if board.getD i E == E then
      let b1 := board.set i p
      let r := minimaxS board.length b1 0 false XInt.ninf XInt.pinf p o
      let b3 := r.2.set i E
      if xlt best_val r.1 then rootLoop rest b3 p o r.1 (some i)
      else rootLoop rest b3 p o best_val best_move
    else rootLoop rest board p o best_val best_move

/-- `MinimaxAgent.get_move` in state-passing form: chosen move together with
the board list as the Python method leaves it. -/
def get_moveS (board : List Mark) (player_mark : Mark) : Option Nat × List Mark :=
  rootLoop (List.range board.length) board player_mark (other player_mark) XInt.ninf none

/-- `MinimaxAgent.get_move`: the move it returns. -/
def get_move (board : List Mark) (player_mark : Mark) : Option Nat :=
  (get_moveS board player_mark).1

/-! ## Oracle agent: `src/agents/perfect_agent.py` -/

/-- Agent-side cell encoding: the agents store boards as lists of the strings
"", "X", "O". -/
def aCell : Mark → String
  | X => "X"
  | O => "O"
  | E => ""

/-- `PerfectAgent._generate_state_id`: empty cells are mapped to "-" and the 9
cell symbols are joined, then `"_"` and the player symbol are appended. -/
def agent_generate_state_id (board : List Mark) (player : Mark) : String :=
  String.join (board.map (fun cell => if aCell cell == "" then "-" else aCell cell))
    ++ "_" ++ aCell player

/-- Outcome of the oracle lookup in `PerfectAgent.get_move`: an
`sqlite3.Error`, no row for the key, or a row whose `best_move` column is
`NULL` (`none`) or an integer. -/
inductive DBResult : Type
  | err
  | missing
  | found (best_move : Option Int)
  deriving DecidableEq

/-- `PerfectAgent._get_random_move`: `random.choice` over the empty cells,
modelled by an arbitrary index `r` reduced modulo the number of empty cells;
`none` when no empty cell exists. -/
def get_random_move (board : List Mark) (r : Nat) : Option Nat :=
  let empty_cells := (List.range board.length).filter (fun i => board.getD i E == E)
  if empty_cells.isEmpty then none
  else some (empty_cells.getD (r % empty_cells.length) 0)

/-- `PerfectAgent.get_move`, parameterised by the database behaviour `db` and
the randomness `r`.  The second component records whether a diagnostic was
printed (the two warning `print`s and the database-error `print`). -/
def perfect_get_move (board : List Mark) (player : Mark)
    (db : String → DBResult) (r : Nat) : Option Nat × Bool :=
  let state_id := agent_generate_state_id board player
  match db state_id with
  | DBResult.err => (get_random_move board r, true)
  | DBResult.missing => (get_random_move board r, true)
  | DBResult.found none => (get_random_move board r, true)
  | DBResult.found (some move) =>
    if 0 ≤ move ∧ move < (board.length : Int) ∧ board.getD move.toNat E = E then
      (some move.toNat, false)
    else (get_random_move board r, true)

/-! ## Specification-side vocabulary

These definitions restate the spec's words (winning line, child list, root
values); the claims compare them with the embedded source functions. -/

/-- The eight winning lines of the 3-by-3 board, as index triples. -/
def linesSpec : List (Nat × Nat × Nat) :=
  [(0,1,2), (3,4,5), (6,7,8), (0,3,6), (1,4,7), (2,5,8), (0,4,8), (2,4,6)]

/-- The three cells of line `t` all carry mark `m`. -/
def isLine (board : List Mark) (m : Mark) (t : Nat × Nat × Nat) : Prop :=
  board.getD t.1 E = m ∧ board.getD t.2.1 E = m ∧ board.getD t.2.2 E = m

instance (board : List Mark) (m : Mark) (t : Nat × Nat × Nat) :
    Decidable (isLine board m t) := by
  unfold isLine
  infer_instance

/-- Mark `m` owns some winning line of `board`. -/
def hasLine (board : List Mark) (m : Mark) : Prop :=
  ∃ t ∈ linesSpec, isLine board m t

instance (board : List Mark) (m : Mark) : Decidable (hasLine board m) := by
  unfold hasLine
  infer_instance

/-- The `(score, index)` pairs `evaluate_state` collects, in ascending index
order: one pair per empty cell, scoring the board after the mover plays
there. -/
def movesList (board : List Mark) (next_player : Mark) : List (Int × Nat) :=
  (List.range board.length).filterMap (fun i =>
    if board.getD i E == E then
      some ((evaluate_state (board.set i next_player) (other next_player)).1, i)
    else none)

/-- The value `MinimaxAgent.get_move` computes for root candidate `i`: place
the player's mark on cell `i` and search with fresh bounds `(-inf, +inf)`. -/
def rootVal (board : List Mark) (p : Mark) (i : Nat) : XInt :=
  (minimaxS board.length (board.set i p) 0 false XInt.ninf XInt.pinf p (other p)).1

/-! ## Draw certificates

A `Cert` is an explicit strategy tree: at a node of the certified player the
tree prescribes one move (`play`), at a node of the adversary it covers every
empty cell in ascending order (`branch`), and `stop` marks a board that is
already terminal.  `certX c b mover` checks that, from `b` with `mover` to
move, O can prevent any X win (so the game value is at most a draw); `certO`
is the mirror image.  Soundness with respect to `evaluate_state` and
`minimaxS` is proved below; the concrete trees for claim C5 are data. -/

mutual

inductive Cert : Type
  | stop : Cert
  | play : Nat → Cert → Cert
  | branch : Certs → Cert

inductive Certs : Type
  | nil : Certs
  | cons : Cert → Certs → Certs

end

/-- Empty cells of the board, ascending: the order in which both search
loops enumerate legal moves. -/
def allEmpties (board : List Mark) : List Nat :=
  (List.range board.length).filter (fun i => board.getD i E == E)

/-- Boolean winner test used by the certificate checkers: `m` owns one of the
eight lines.  `winsB_iff_hasLine` relates it to the spec predicate. -/
def winsB (board : List Mark) (m : Mark) : Bool :=
  linesSpec.any (fun t =>
    board.getD t.1 E == m && board.getD t.2.1 E == m && board.getD t.2.2 E == m)

mutual

/-- Check a certificate that X cannot force a win from `board` with `mover`
to move: false on an X win, true on an O win or a full board; at an O node
the certificate plays one legal move, at an X node it covers all of them. -/
def certX : Cert → List Mark → Mark → Bool
  | c, board, mover =>
    if winsB board X then false
    else if winsB board O then true
    else if !(board.contains E) then true
    else
      match c, mover with
      | Cert.play i c1, O =>
        decide (i < board.length) && (board.getD i E == E) && certX c1 (board.set i O) X
      | Cert.branch cs, X => certXAll cs (allEmpties board) board
      | _, _ => false

/-- Walk an X node's children in lockstep with the empty cells. -/
def certXAll : Certs → List Nat → List Mark → Bool
  | Certs.nil, [], _ => true
  | Certs.cons c cs, i :: is, board => certX c (board.set i X) O && certXAll cs is board
  | _, _, _ => false

end

mutual

/-- Check a certificate that O cannot force a win from `board` with `mover`
to move (the game value is at least a draw). -/
def certO : Cert → List Mark → Mark → Bool
  | c, board, mover =>
    if winsB board O then false
    else if winsB board X then true
    else if !(board.contains E) then true
    else
      match c, mover with
      | Cert.play i c1, X =>
        decide (i < board.length) && (board.getD i E == E) && certO c1 (board.set i X) O
      | Cert.branch cs, O => certOAll cs (allEmpties board) board
      | _, _ => false

/-- Walk an O node's children in lockstep with the empty cells. -/
def certOAll : Certs → List Nat → List Mark → Bool
  | Certs.nil, [], _ => true
  | Certs.cons c cs, i :: is, board => certO c (board.set i O) X && certOAll cs is board
  | _, _, _ => false

end

/-- Children of the root of the X-side draw certificate (data). -/
def drawLowCs : Certs :=
  Certs.cons (Cert.play 4 (Cert.branch (Certs.cons (Cert.play 2 (Cert.branch (Certs.cons (Cert.play 6 (Cert.stop)) (Certs.cons (Cert.play 6 (Cert.stop)) (Certs.cons (Cert.play 3 (Cert.branch (Certs.cons (Cert.play 7 (Cert.branch (Certs.cons (Cert.stop) (Certs.nil)))) (Certs.cons (Cert.play 5 (Cert.stop)) (Certs.cons (Cert.play 5 (Cert.stop)) (Certs.nil)))))) (Certs.cons (Cert.play 6 (Cert.stop)) (Certs.cons (Cert.play 6 (Cert.stop)) (Certs.nil)))))))) (Certs.cons (Cert.play 1 (Cert.branch (Certs.cons (Cert.play 7 (Cert.stop)) (Certs.cons (Cert.play 7 (Cert.stop)) (Certs.cons (Cert.play 7 (Cert.stop)) (Certs.cons (Cert.play 3 (Cert.branch (Certs.cons (Cert.play 8 (Cert.branch (Certs.cons (Cert.stop) (Certs.nil)))) (Certs.cons (Cert.play 5 (Cert.stop)) (Certs.cons (Cert.play 5 (Cert.stop)) (Certs.nil)))))) (Certs.cons (Cert.play 7 (Cert.stop)) (Certs.nil)))))))) (Certs.cons (Cert.play 6 (Cert.branch (Certs.cons (Cert.play 2 (Cert.stop)) (Certs.cons (Cert.play 1 (Cert.branch (Certs.cons (Cert.play 7 (Cert.stop)) (Certs.cons (Cert.play 5 (Cert.branch (Certs.cons (Cert.stop) (Certs.nil)))) (Certs.cons (Cert.play 7 (Cert.stop)) (Certs.nil)))))) (Certs.cons (Cert.play 2 (Cert.stop)) (Certs.cons (Cert.play 2 (Cert.stop)) (Certs.cons (Cert.play 2 (Cert.stop)) (Certs.nil)))))))) (Certs.cons (Cert.play 1 (Cert.branch (Certs.cons (Cert.play 7 (Cert.stop)) (Certs.cons (Cert.play 7 (Cert.stop)) (Certs.cons (Cert.play 7 (Cert.stop)) (Certs.cons (Cert.play 6 (Cert.branch (Certs.cons (Cert.play 8 (Cert.branch (Certs.cons (Cert.stop) (Certs.nil)))) (Certs.cons (Cert.play 2 (Cert.stop)) (Certs.cons (Cert.play 2 (Cert.stop)) (Certs.nil)))))) (Certs.cons (Cert.play 7 (Cert.stop)) (Certs.nil)))))))) (Certs.cons (Cert.play 3 (Cert.branch (Certs.cons (Cert.play 5 (Cert.stop)) (Certs.cons (Cert.play 5 (Cert.stop)) (Certs.cons (Cert.play 1 (Cert.branch (Certs.cons (Cert.play 7 (Cert.stop)) (Certs.cons (Cert.play 8 (Cert.branch (Certs.cons (Cert.stop) (Certs.nil)))) (Certs.cons (Cert.play 7 (Cert.stop)) (Certs.nil)))))) (Certs.cons (Cert.play 5 (Cert.stop)) (Certs.cons (Cert.play 5 (Cert.stop)) (Certs.nil)))))))) (Certs.cons (Cert.play 3 (Cert.branch (Certs.cons (Cert.play 5 (Cert.stop)) (Certs.cons (Cert.play 5 (Cert.stop)) (Certs.cons (Cert.play 2 (Cert.branch (Certs.cons (Cert.play 6 (Cert.stop)) (Certs.cons (Cert.play 8 (Cert.branch (Certs.cons (Cert.stop) (Certs.nil)))) (Certs.cons (Cert.play 6 (Cert.stop)) (Certs.nil)))))) (Certs.cons (Cert.play 5 (Cert.stop)) (Certs.cons (Cert.play 5 (Cert.stop)) (Certs.nil)))))))) (Certs.cons (Cert.play 1 (Cert.branch (Certs.cons (Cert.play 7 (Cert.stop)) (Certs.cons (Cert.play 7 (Cert.stop)) (Certs.cons (Cert.play 7 (Cert.stop)) (Certs.cons (Cert.play 7 (Cert.stop)) (Certs.cons (Cert.play 6 (Cert.branch (Certs.cons (Cert.play 5 (Cert.branch (Certs.cons (Cert.stop) (Certs.nil)))) (Certs.cons (Cert.play 2 (Cert.stop)) (Certs.cons (Cert.play 2 (Cert.stop)) (Certs.nil)))))) (Certs.nil)))))))) (Certs.nil)))))))))) (Certs.cons (Cert.play 4 (Cert.branch (Certs.cons (Cert.play 2 (Cert.branch (Certs.cons (Cert.play 6 (Cert.stop)) (Certs.cons (Cert.play 6 (Cert.stop)) (Certs.cons (Cert.play 3 (Cert.branch (Certs.cons (Cert.play 7 (Cert.branch (Certs.cons (Cert.stop) (Certs.nil)))) (Certs.cons (Cert.play 5 (Cert.stop)) (Certs.cons (Cert.play 5 (Cert.stop)) (Certs.nil)))))) (Certs.cons (Cert.play 6 (Cert.stop)) (Certs.cons (Cert.play 6 (Cert.stop)) (Certs.nil)))))))) (Certs.cons (Cert.play 0 (Cert.branch (Certs.cons (Cert.play 8 (Cert.stop)) (Certs.cons (Cert.play 8 (Cert.stop)) (Certs.cons (Cert.play 8 (Cert.stop)) (Certs.cons (Cert.play 8 (Cert.stop)) (Certs.cons (Cert.play 5 (Cert.branch (Certs.cons (Cert.play 6 (Cert.branch (Certs.cons (Cert.stop) (Certs.nil)))) (Certs.cons (Cert.play 3 (Cert.stop)) (Certs.cons (Cert.play 3 (Cert.stop)) (Certs.nil)))))) (Certs.nil)))))))) (Certs.cons (Cert.play 0 (Cert.branch (Certs.cons (Cert.play 8 (Cert.stop)) (Certs.cons (Cert.play 8 (Cert.stop)) (Certs.cons (Cert.play 8 (Cert.stop)) (Certs.cons (Cert.play 8 (Cert.stop)) (Certs.cons (Cert.play 2 (Cert.branch (Certs.cons (Cert.play 6 (Cert.stop)) (Certs.cons (Cert.play 7 (Cert.branch (Certs.cons (Cert.stop) (Certs.nil)))) (Certs.cons (Cert.play 6 (Cert.stop)) (Certs.nil)))))) (Certs.nil)))))))) (Certs.cons (Cert.play 0 (Cert.branch (Certs.cons (Cert.play 8 (Cert.stop)) (Certs.cons (Cert.play 8 (Cert.stop)) (Certs.cons (Cert.play 8 (Cert.stop)) (Certs.cons (Cert.play 8 (Cert.stop)) (Certs.cons (Cert.play 2 (Cert.branch (Certs.cons (Cert.play 6 (Cert.stop)) (Certs.cons (Cert.play 7 (Cert.branch (Certs.cons (Cert.stop) (Certs.nil)))) (Certs.cons (Cert.play 6 (Cert.stop)) (Certs.nil)))))) (Certs.nil)))))))) (Certs.cons (Cert.play 3 (Cert.branch (Certs.cons (Cert.play 5 (Cert.stop)) (Certs.cons (Cert.play 5 (Cert.stop)) (Certs.cons (Cert.play 8 (Cert.branch (Certs.cons (Cert.play 2 (Cert.branch (Certs.cons (Cert.stop) (Certs.nil)))) (Certs.cons (Cert.play 0 (Cert.stop)) (Certs.cons (Cert.play 0 (Cert.stop)) (Certs.nil)))))) (Certs.cons (Cert.play 5 (Cert.stop)) (Certs.cons (Cert.play 5 (Cert.stop)) (Certs.nil)))))))) (Certs.cons (Cert.play 0 (Cert.branch (Certs.cons (Cert.play 8 (Cert.stop)) (Certs.cons (Cert.play 8 (Cert.stop)) (Certs.cons (Cert.play 8 (Cert.stop)) (Certs.cons (Cert.play 8 (Cert.stop)) (Certs.cons (Cert.play 6 (Cert.branch (Certs.cons (Cert.play 3 (Cert.stop)) (Certs.cons (Cert.play 2 (Cert.stop)) (Certs.cons (Cert.play 2 (Cert.stop)) (Certs.nil)))))) (Certs.nil)))))))) (Certs.cons (Cert.play 3 (Cert.branch (Certs.cons (Cert.play 5 (Cert.stop)) (Certs.cons (Cert.play 5 (Cert.stop)) (Certs.cons (Cert.play 2 (Cert.branch (Certs.cons (Cert.play 6 (Cert.stop)) (Certs.cons (Cert.play 7 (Cert.branch (Certs.cons (Cert.stop) (Certs.nil)))) (Certs.cons (Cert.play 6 (Cert.stop)) (Certs.nil)))))) (Certs.cons (Cert.play 5 (Cert.stop)) (Certs.cons (Cert.play 5 (Cert.stop)) (Certs.nil)))))))) (Certs.nil)))))))))) (Certs.cons (Cert.play 4 (Cert.branch (Certs.cons (Cert.play 1 (Cert.branch (Certs.cons (Cert.play 7 (Cert.stop)) (Certs.cons (Cert.play 7 (Cert.stop)) (Certs.cons (Cert.play 7 (Cert.stop)) (Certs.cons (Cert.play 3 (Cert.branch (Certs.cons (Cert.play 8 (Cert.branch (Certs.cons (Cert.stop) (Certs.nil)))) (Certs.cons (Cert.play 5 (Cert.stop)) (Certs.cons (Cert.play 5 (Cert.stop)) (Certs.nil)))))) (Certs.cons (Cert.play 7 (Cert.stop)) (Certs.nil)))))))) (Certs.cons (Cert.play 0 (Cert.branch (Certs.cons (Cert.play 8 (Cert.stop)) (Certs.cons (Cert.play 8 (Cert.stop)) (Certs.cons (Cert.play 8 (Cert.stop)) (Certs.cons (Cert.play 8 (Cert.stop)) (Certs.cons (Cert.play 5 (Cert.branch (Certs.cons (Cert.play 6 (Cert.branch (Certs.cons (Cert.stop) (Certs.nil)))) (Certs.cons (Cert.play 3 (Cert.stop)) (Certs.cons (Cert.play 3 (Cert.stop)) (Certs.nil)))))) (Certs.nil)))))))) (Certs.cons (Cert.play 1 (Cert.branch (Certs.cons (Cert.play 7 (Cert.stop)) (Certs.cons (Cert.play 7 (Cert.stop)) (Certs.cons (Cert.play 7 (Cert.stop)) (Certs.cons (Cert.play 8 (Cert.branch (Certs.cons (Cert.play 6 (Cert.branch (Certs.cons (Cert.stop) (Certs.nil)))) (Certs.cons (Cert.play 0 (Cert.stop)) (Certs.cons (Cert.play 0 (Cert.stop)) (Certs.nil)))))) (Certs.cons (Cert.play 7 (Cert.stop)) (Certs.nil)))))))) (Certs.cons (Cert.play 8 (Cert.branch (Certs.cons (Cert.play 1 (Cert.branch (Certs.cons (Cert.play 7 (Cert.stop)) (Certs.cons (Cert.play 7 (Cert.stop)) (Certs.cons (Cert.play 3 (Cert.branch (Certs.cons (Cert.stop) (Certs.nil)))) (Certs.nil)))))) (Certs.cons (Cert.play 0 (Cert.stop)) (Certs.cons (Cert.play 0 (Cert.stop)) (Certs.cons (Cert.play 0 (Cert.stop)) (Certs.cons (Cert.play 0 (Cert.stop)) (Certs.nil)))))))) (Certs.cons (Cert.play 1 (Cert.branch (Certs.cons (Cert.play 7 (Cert.stop)) (Certs.cons (Cert.play 7 (Cert.stop)) (Certs.cons (Cert.play 7 (Cert.stop)) (Certs.cons (Cert.play 8 (Cert.branch (Certs.cons (Cert.play 3 (Cert.branch (Certs.cons (Cert.stop) (Certs.nil)))) (Certs.cons (Cert.play 0 (Cert.stop)) (Certs.cons (Cert.play 0 (Cert.stop)) (Certs.nil)))))) (Certs.cons (Cert.play 7 (Cert.stop)) (Certs.nil)))))))) (Certs.cons (Cert.play 3 (Cert.branch (Certs.cons (Cert.play 5 (Cert.stop)) (Certs.cons (Cert.play 5 (Cert.stop)) (Certs.cons (Cert.play 8 (Cert.branch (Certs.cons (Cert.play 1 (Cert.branch (Certs.cons (Cert.stop) (Certs.nil)))) (Certs.cons (Cert.play 0 (Cert.stop)) (Certs.cons (Cert.play 0 (Cert.stop)) (Certs.nil)))))) (Certs.cons (Cert.play 5 (Cert.stop)) (Certs.cons (Cert.play 5 (Cert.stop)) (Certs.nil)))))))) (Certs.cons (Cert.play 5 (Cert.branch (Certs.cons (Cert.play 3 (Cert.stop)) (Certs.cons (Cert.play 3 (Cert.stop)) (Certs.cons (Cert.play 1 (Cert.branch (Certs.cons (Cert.play 7 (Cert.stop)) (Certs.cons (Cert.play 7 (Cert.stop)) (Certs.cons (Cert.play 6 (Cert.branch (Certs.cons (Cert.stop) (Certs.nil)))) (Certs.nil)))))) (Certs.cons (Cert.play 3 (Cert.stop)) (Certs.cons (Cert.play 3 (Cert.stop)) (Certs.nil)))))))) (Certs.nil)))))))))) (Certs.cons (Cert.play 4 (Cert.branch (Certs.cons (Cert.play 6 (Cert.branch (Certs.cons (Cert.play 2 (Cert.stop)) (Certs.cons (Cert.play 1 (Cert.branch (Certs.cons (Cert.play 7 (Cert.stop)) (Certs.cons (Cert.play 5 (Cert.branch (Certs.cons (Cert.stop) (Certs.nil)))) (Certs.cons (Cert.play 7 (Cert.stop)) (Certs.nil)))))) (Certs.cons (Cert.play 2 (Cert.stop)) (Certs.cons (Cert.play 2 (Cert.stop)) (Certs.cons (Cert.play 2 (Cert.stop)) (Certs.nil)))))))) (Certs.cons (Cert.play 0 (Cert.branch (Certs.cons (Cert.play 8 (Cert.stop)) (Certs.cons (Cert.play 8 (Cert.stop)) (Certs.cons (Cert.play 8 (Cert.stop)) (Certs.cons (Cert.play 8 (Cert.stop)) (Certs.cons (Cert.play 2 (Cert.branch (Certs.cons (Cert.play 6 (Cert.stop)) (Certs.cons (Cert.play 7 (Cert.branch (Certs.cons (Cert.stop) (Certs.nil)))) (Certs.cons (Cert.play 6 (Cert.stop)) (Certs.nil)))))) (Certs.nil)))))))) (Certs.cons (Cert.play 1 (Cert.branch (Certs.cons (Cert.play 7 (Cert.stop)) (Certs.cons (Cert.play 7 (Cert.stop)) (Certs.cons (Cert.play 7 (Cert.stop)) (Certs.cons (Cert.play 8 (Cert.branch (Certs.cons (Cert.play 6 (Cert.branch (Certs.cons (Cert.stop) (Certs.nil)))) (Certs.cons (Cert.play 0 (Cert.stop)) (Certs.cons (Cert.play 0 (Cert.stop)) (Certs.nil)))))) (Certs.cons (Cert.play 7 (Cert.stop)) (Certs.nil)))))))) (Certs.cons (Cert.play 0 (Cert.branch (Certs.cons (Cert.play 8 (Cert.stop)) (Certs.cons (Cert.play 8 (Cert.stop)) (Certs.cons (Cert.play 8 (Cert.stop)) (Certs.cons (Cert.play 8 (Cert.stop)) (Certs.cons (Cert.play 2 (Cert.branch (Certs.cons (Cert.play 6 (Cert.stop)) (Certs.cons (Cert.play 1 (Cert.stop)) (Certs.cons (Cert.play 1 (Cert.stop)) (Certs.nil)))))) (Certs.nil)))))))) (Certs.cons (Cert.play 0 (Cert.branch (Certs.cons (Cert.play 8 (Cert.stop)) (Certs.cons (Cert.play 8 (Cert.stop)) (Certs.cons (Cert.play 8 (Cert.stop)) (Certs.cons (Cert.play 8 (Cert.stop)) (Certs.cons (Cert.play 7 (Cert.branch (Certs.cons (Cert.play 2 (Cert.branch (Certs.cons (Cert.stop) (Certs.nil)))) (Certs.cons (Cert.play 1 (Cert.stop)) (Certs.cons (Cert.play 1 (Cert.stop)) (Certs.nil)))))) (Certs.nil)))))))) (Certs.cons (Cert.play 0 (Cert.branch (Certs.cons (Cert.play 8 (Cert.stop)) (Certs.cons (Cert.play 8 (Cert.stop)) (Certs.cons (Cert.play 8 (Cert.stop)) (Certs.cons (Cert.play 8 (Cert.stop)) (Certs.cons (Cert.play 6 (Cert.branch (Certs.cons (Cert.play 2 (Cert.stop)) (Certs.cons (Cert.play 5 (Cert.branch (Certs.cons (Cert.stop) (Certs.nil)))) (Certs.cons (Cert.play 2 (Cert.stop)) (Certs.nil)))))) (Certs.nil)))))))) (Certs.cons (Cert.play 1 (Cert.branch (Certs.cons (Cert.play 7 (Cert.stop)) (Certs.cons (Cert.play 7 (Cert.stop)) (Certs.cons (Cert.play 7 (Cert.stop)) (Certs.cons (Cert.play 7 (Cert.stop)) (Certs.cons (Cert.play 6 (Cert.branch (Certs.cons (Cert.play 2 (Cert.stop)) (Certs.cons (Cert.play 5 (Cert.branch (Certs.cons (Cert.stop) (Certs.nil)))) (Certs.cons (Cert.play 2 (Cert.stop)) (Certs.nil)))))) (Certs.nil)))))))) (Certs.nil)))))))))) (Certs.cons (Cert.play 0 (Cert.branch (Certs.cons (Cert.play 7 (Cert.branch (Certs.cons (Cert.play 6 (Cert.branch (Certs.cons (Cert.play 8 (Cert.stop)) (Certs.cons (Cert.play 3 (Cert.stop)) (Certs.cons (Cert.play 3 (Cert.stop)) (Certs.nil)))))) (Certs.cons (Cert.play 5 (Cert.branch (Certs.cons (Cert.play 6 (Cert.branch (Certs.cons (Cert.stop) (Certs.nil)))) (Certs.cons (Cert.play 2 (Cert.branch (Certs.cons (Cert.stop) (Certs.nil)))) (Certs.cons (Cert.play 2 (Cert.branch (Certs.cons (Cert.stop) (Certs.nil)))) (Certs.nil)))))) (Certs.cons (Cert.play 3 (Cert.branch (Certs.cons (Cert.play 6 (Cert.stop)) (Certs.cons (Cert.play 2 (Cert.branch (Certs.cons (Cert.stop) (Certs.nil)))) (Certs.cons (Cert.play 6 (Cert.stop)) (Certs.nil)))))) (Certs.cons (Cert.play 2 (Cert.branch (Certs.cons (Cert.play 5 (Cert.branch (Certs.cons (Cert.stop) (Certs.nil)))) (Certs.cons (Cert.play 3 (Cert.branch (Certs.cons (Cert.stop) (Certs.nil)))) (Certs.cons (Cert.play 3 (Cert.branch (Certs.cons (Cert.stop) (Certs.nil)))) (Certs.nil)))))) (Certs.cons (Cert.play 3 (Cert.branch (Certs.cons (Cert.play 6 (Cert.stop)) (Certs.cons (Cert.play 6 (Cert.stop)) (Certs.cons (Cert.play 2 (Cert.branch (Certs.cons (Cert.stop) (Certs.nil)))) (Certs.nil)))))) (Certs.nil)))))))) (Certs.cons (Cert.play 6 (Cert.branch (Certs.cons (Cert.play 3 (Cert.stop)) (Certs.cons (Cert.play 5 (Cert.branch (Certs.cons (Cert.play 7 (Cert.branch (Certs.cons (Cert.stop) (Certs.nil)))) (Certs.cons (Cert.play 1 (Cert.branch (Certs.cons (Cert.stop) (Certs.nil)))) (Certs.cons (Cert.play 1 (Cert.branch (Certs.cons (Cert.stop) (Certs.nil)))) (Certs.nil)))))) (Certs.cons (Cert.play 3 (Cert.stop)) (Certs.cons (Cert.play 3 (Cert.stop)) (Certs.cons (Cert.play 3 (Cert.stop)) (Certs.nil)))))))) (Certs.cons (Cert.play 5 (Cert.branch (Certs.cons (Cert.play 7 (Cert.branch (Certs.cons (Cert.play 6 (Cert.branch (Certs.cons (Cert.stop) (Certs.nil)))) (Certs.cons (Cert.play 2 (Cert.branch (Certs.cons (Cert.stop) (Certs.nil)))) (Certs.cons (Cert.play 2 (Cert.branch (Certs.cons (Cert.stop) (Certs.nil)))) (Certs.nil)))))) (Certs.cons (Cert.play 6 (Cert.branch (Certs.cons (Cert.play 7 (Cert.branch (Certs.cons (Cert.stop) (Certs.nil)))) (Certs.cons (Cert.play 1 (Cert.branch (Certs.cons (Cert.stop) (Certs.nil)))) (Certs.cons (Cert.play 1 (Cert.branch (Certs.cons (Cert.stop) (Certs.nil)))) (Certs.nil)))))) (Certs.cons (Cert.play 2 (Cert.branch (Certs.cons (Cert.play 8 (Cert.stop)) (Certs.cons (Cert.play 1 (Cert.stop)) (Certs.cons (Cert.play 1 (Cert.stop)) (Certs.nil)))))) (Certs.cons (Cert.play 1 (Cert.branch (Certs.cons (Cert.play 6 (Cert.branch (Certs.cons (Cert.stop) (Certs.nil)))) (Certs.cons (Cert.play 2 (Cert.stop)) (Certs.cons (Cert.play 2 (Cert.stop)) (Certs.nil)))))) (Certs.cons (Cert.play 1 (Cert.branch (Certs.cons (Cert.play 6 (Cert.branch (Certs.cons (Cert.stop) (Certs.nil)))) (Certs.cons (Cert.play 2 (Cert.stop)) (Certs.cons (Cert.play 2 (Cert.stop)) (Certs.nil)))))) (Certs.nil)))))))) (Certs.cons (Cert.play 3 (Cert.branch (Certs.cons (Cert.play 6 (Cert.stop)) (Certs.cons (Cert.play 6 (Cert.stop)) (Certs.cons (Cert.play 2 (Cert.branch (Certs.cons (Cert.play 7 (Cert.branch (Certs.cons (Cert.stop) (Certs.nil)))) (Certs.cons (Cert.play 1 (Cert.stop)) (Certs.cons (Cert.play 1 (Cert.stop)) (Certs.nil)))))) (Certs.cons (Cert.play 6 (Cert.stop)) (Certs.cons (Cert.play 6 (Cert.stop)) (Certs.nil)))))))) (Certs.cons (Cert.play 2 (Cert.branch (Certs.cons (Cert.play 7 (Cert.branch (Certs.cons (Cert.play 5 (Cert.branch (Certs.cons (Cert.stop) (Certs.nil)))) (Certs.cons (Cert.play 3 (Cert.branch (Certs.cons (Cert.stop) (Certs.nil)))) (Certs.cons (Cert.play 3 (Cert.branch (Certs.cons (Cert.stop) (Certs.nil)))) (Certs.nil)))))) (Certs.cons (Cert.play 1 (Cert.stop)) (Certs.cons (Cert.play 1 (Cert.stop)) (Certs.cons (Cert.play 1 (Cert.stop)) (Certs.cons (Cert.play 1 (Cert.stop)) (Certs.nil)))))))) (Certs.cons (Cert.play 1 (Cert.branch (Certs.cons (Cert.play 6 (Cert.branch (Certs.cons (Cert.play 5 (Cert.branch (Certs.cons (Cert.stop) (Certs.nil)))) (Certs.cons (Cert.play 3 (Cert.stop)) (Certs.cons (Cert.play 3 (Cert.stop)) (Certs.nil)))))) (Certs.cons (Cert.play 2 (Cert.stop)) (Certs.cons (Cert.play 2 (Cert.stop)) (Certs.cons (Cert.play 2 (Cert.stop)) (Certs.cons (Cert.play 2 (Cert.stop)) (Certs.nil)))))))) (Certs.cons (Cert.play 2 (Cert.branch (Certs.cons (Cert.play 7 (Cert.branch (Certs.cons (Cert.play 5 (Cert.branch (Certs.cons (Cert.stop) (Certs.nil)))) (Certs.cons (Cert.play 3 (Cert.branch (Certs.cons (Cert.stop) (Certs.nil)))) (Certs.cons (Cert.play 3 (Cert.branch (Certs.cons (Cert.stop) (Certs.nil)))) (Certs.nil)))))) (Certs.cons (Cert.play 1 (Cert.stop)) (Certs.cons (Cert.play 1 (Cert.stop)) (Certs.cons (Cert.play 1 (Cert.stop)) (Certs.cons (Cert.play 1 (Cert.stop)) (Certs.nil)))))))) (Certs.nil)))))))))) (Certs.cons (Cert.play 4 (Cert.branch (Certs.cons (Cert.play 1 (Cert.branch (Certs.cons (Cert.play 7 (Cert.stop)) (Certs.cons (Cert.play 7 (Cert.stop)) (Certs.cons (Cert.play 7 (Cert.stop)) (Certs.cons (Cert.play 6 (Cert.branch (Certs.cons (Cert.play 8 (Cert.branch (Certs.cons (Cert.stop) (Certs.nil)))) (Certs.cons (Cert.play 2 (Cert.stop)) (Certs.cons (Cert.play 2 (Cert.stop)) (Certs.nil)))))) (Certs.cons (Cert.play 7 (Cert.stop)) (Certs.nil)))))))) (Certs.cons (Cert.play 0 (Cert.branch (Certs.cons (Cert.play 8 (Cert.stop)) (Certs.cons (Cert.play 8 (Cert.stop)) (Certs.cons (Cert.play 8 (Cert.stop)) (Certs.cons (Cert.play 8 (Cert.stop)) (Certs.cons (Cert.play 2 (Cert.branch (Certs.cons (Cert.play 6 (Cert.stop)) (Certs.cons (Cert.play 7 (Cert.branch (Certs.cons (Cert.stop) (Certs.nil)))) (Certs.cons (Cert.play 6 (Cert.stop)) (Certs.nil)))))) (Certs.nil)))))))) (Certs.cons (Cert.play 8 (Cert.branch (Certs.cons (Cert.play 1 (Cert.branch (Certs.cons (Cert.play 7 (Cert.stop)) (Certs.cons (Cert.play 7 (Cert.stop)) (Certs.cons (Cert.play 3 (Cert.branch (Certs.cons (Cert.stop) (Certs.nil)))) (Certs.nil)))))) (Certs.cons (Cert.play 0 (Cert.stop)) (Certs.cons (Cert.play 0 (Cert.stop)) (Certs.cons (Cert.play 0 (Cert.stop)) (Certs.cons (Cert.play 0 (Cert.stop)) (Certs.nil)))))))) (Certs.cons (Cert.play 0 (Cert.branch (Certs.cons (Cert.play 8 (Cert.stop)) (Certs.cons (Cert.play 8 (Cert.stop)) (Certs.cons (Cert.play 8 (Cert.stop)) (Certs.cons (Cert.play 8 (Cert.stop)) (Certs.cons (Cert.play 2 (Cert.branch (Certs.cons (Cert.play 6 (Cert.stop)) (Certs.cons (Cert.play 1 (Cert.stop)) (Certs.cons (Cert.play 1 (Cert.stop)) (Certs.nil)))))) (Certs.nil)))))))) (Certs.cons (Cert.play 1 (Cert.branch (Certs.cons (Cert.play 7 (Cert.stop)) (Certs.cons (Cert.play 7 (Cert.stop)) (Certs.cons (Cert.play 7 (Cert.stop)) (Certs.cons (Cert.play 8 (Cert.branch (Certs.cons (Cert.play 3 (Cert.branch (Certs.cons (Cert.stop) (Certs.nil)))) (Certs.cons (Cert.play 0 (Cert.stop)) (Certs.cons (Cert.play 0 (Cert.stop)) (Certs.nil)))))) (Certs.cons (Cert.play 7 (Cert.stop)) (Certs.nil)))))))) (Certs.cons (Cert.play 2 (Cert.branch (Certs.cons (Cert.play 6 (Cert.stop)) (Certs.cons (Cert.play 6 (Cert.stop)) (Certs.cons (Cert.play 6 (Cert.stop)) (Certs.cons (Cert.play 8 (Cert.branch (Certs.cons (Cert.play 3 (Cert.branch (Certs.cons (Cert.stop) (Certs.nil)))) (Certs.cons (Cert.play 0 (Cert.stop)) (Certs.cons (Cert.play 0 (Cert.stop)) (Certs.nil)))))) (Certs.cons (Cert.play 6 (Cert.stop)) (Certs.nil)))))))) (Certs.cons (Cert.play 2 (Cert.branch (Certs.cons (Cert.play 6 (Cert.stop)) (Certs.cons (Cert.play 6 (Cert.stop)) (Certs.cons (Cert.play 6 (Cert.stop)) (Certs.cons (Cert.play 7 (Cert.branch (Certs.cons (Cert.play 1 (Cert.stop)) (Certs.cons (Cert.play 0 (Cert.branch (Certs.cons (Cert.stop) (Certs.nil)))) (Certs.cons (Cert.play 1 (Cert.stop)) (Certs.nil)))))) (Certs.cons (Cert.play 6 (Cert.stop)) (Certs.nil)))))))) (Certs.nil)))))))))) (Certs.cons (Cert.play 4 (Cert.branch (Certs.cons (Cert.play 3 (Cert.branch (Certs.cons (Cert.play 5 (Cert.stop)) (Certs.cons (Cert.play 5 (Cert.stop)) (Certs.cons (Cert.play 1 (Cert.branch (Certs.cons (Cert.play 7 (Cert.stop)) (Certs.cons (Cert.play 8 (Cert.branch (Certs.cons (Cert.stop) (Certs.nil)))) (Certs.cons (Cert.play 7 (Cert.stop)) (Certs.nil)))))) (Certs.cons (Cert.play 5 (Cert.stop)) (Certs.cons (Cert.play 5 (Cert.stop)) (Certs.nil)))))))) (Certs.cons (Cert.play 3 (Cert.branch (Certs.cons (Cert.play 5 (Cert.stop)) (Certs.cons (Cert.play 5 (Cert.stop)) (Certs.cons (Cert.play 8 (Cert.branch (Certs.cons (Cert.play 2 (Cert.branch (Certs.cons (Cert.stop) (Certs.nil)))) (Certs.cons (Cert.play 0 (Cert.stop)) (Certs.cons (Cert.play 0 (Cert.stop)) (Certs.nil)))))) (Certs.cons (Cert.play 5 (Cert.stop)) (Certs.cons (Cert.play 5 (Cert.stop)) (Certs.nil)))))))) (Certs.cons (Cert.play 1 (Cert.branch (Certs.cons (Cert.play 7 (Cert.stop)) (Certs.cons (Cert.play 7 (Cert.stop)) (Certs.cons (Cert.play 7 (Cert.stop)) (Certs.cons (Cert.play 8 (Cert.branch (Certs.cons (Cert.play 3 (Cert.branch (Certs.cons (Cert.stop) (Certs.nil)))) (Certs.cons (Cert.play 0 (Cert.stop)) (Certs.cons (Cert.play 0 (Cert.stop)) (Certs.nil)))))) (Certs.cons (Cert.play 7 (Cert.stop)) (Certs.nil)))))))) (Certs.cons (Cert.play 0 (Cert.branch (Certs.cons (Cert.play 8 (Cert.stop)) (Certs.cons (Cert.play 8 (Cert.stop)) (Certs.cons (Cert.play 8 (Cert.stop)) (Certs.cons (Cert.play 8 (Cert.stop)) (Certs.cons (Cert.play 7 (Cert.branch (Certs.cons (Cert.play 2 (Cert.branch (Certs.cons (Cert.stop) (Certs.nil)))) (Certs.cons (Cert.play 1 (Cert.stop)) (Certs.cons (Cert.play 1 (Cert.stop)) (Certs.nil)))))) (Certs.nil)))))))) (Certs.cons (Cert.play 1 (Cert.branch (Certs.cons (Cert.play 7 (Cert.stop)) (Certs.cons (Cert.play 7 (Cert.stop)) (Certs.cons (Cert.play 7 (Cert.stop)) (Certs.cons (Cert.play 8 (Cert.branch (Certs.cons (Cert.play 3 (Cert.branch (Certs.cons (Cert.stop) (Certs.nil)))) (Certs.cons (Cert.play 0 (Cert.stop)) (Certs.cons (Cert.play 0 (Cert.stop)) (Certs.nil)))))) (Certs.cons (Cert.play 7 (Cert.stop)) (Certs.nil)))))))) (Certs.cons (Cert.play 8 (Cert.branch (Certs.cons (Cert.play 3 (Cert.branch (Certs.cons (Cert.play 5 (Cert.stop)) (Certs.cons (Cert.play 5 (Cert.stop)) (Certs.cons (Cert.play 1 (Cert.branch (Certs.cons (Cert.stop) (Certs.nil)))) (Certs.nil)))))) (Certs.cons (Cert.play 0 (Cert.stop)) (Certs.cons (Cert.play 0 (Cert.stop)) (Certs.cons (Cert.play 0 (Cert.stop)) (Certs.cons (Cert.play 0 (Cert.stop)) (Certs.nil)))))))) (Certs.cons (Cert.play 7 (Cert.branch (Certs.cons (Cert.play 1 (Cert.stop)) (Certs.cons (Cert.play 3 (Cert.branch (Certs.cons (Cert.play 5 (Cert.stop)) (Certs.cons (Cert.play 5 (Cert.stop)) (Certs.cons (Cert.play 2 (Cert.branch (Certs.cons (Cert.stop) (Certs.nil)))) (Certs.nil)))))) (Certs.cons (Cert.play 1 (Cert.stop)) (Certs.cons (Cert.play 1 (Cert.stop)) (Certs.cons (Cert.play 1 (Cert.stop)) (Certs.nil)))))))) (Certs.nil)))))))))) (Certs.cons (Cert.play 4 (Cert.branch (Certs.cons (Cert.play 3 (Cert.branch (Certs.cons (Cert.play 5 (Cert.stop)) (Certs.cons (Cert.play 5 (Cert.stop)) (Certs.cons (Cert.play 2 (Cert.branch (Certs.cons (Cert.play 6 (Cert.stop)) (Certs.cons (Cert.play 8 (Cert.branch (Certs.cons (Cert.stop) (Certs.nil)))) (Certs.cons (Cert.play 6 (Cert.stop)) (Certs.nil)))))) (Certs.cons (Cert.play 5 (Cert.stop)) (Certs.cons (Cert.play 5 (Cert.stop)) (Certs.nil)))))))) (Certs.cons (Cert.play 0 (Cert.branch (Certs.cons (Cert.play 8 (Cert.stop)) (Certs.cons (Cert.play 8 (Cert.stop)) (Certs.cons (Cert.play 8 (Cert.stop)) (Certs.cons (Cert.play 8 (Cert.stop)) (Certs.cons (Cert.play 6 (Cert.branch (Certs.cons (Cert.play 3 (Cert.stop)) (Certs.cons (Cert.play 2 (Cert.stop)) (Certs.cons (Cert.play 2 (Cert.stop)) (Certs.nil)))))) (Certs.nil)))))))) (Certs.cons (Cert.play 3 (Cert.branch (Certs.cons (Cert.play 5 (Cert.stop)) (Certs.cons (Cert.play 5 (Cert.stop)) (Certs.cons (Cert.play 8 (Cert.branch (Certs.cons (Cert.play 1 (Cert.branch (Certs.cons (Cert.stop) (Certs.nil)))) (Certs.cons (Cert.play 0 (Cert.stop)) (Certs.cons (Cert.play 0 (Cert.stop)) (Certs.nil)))))) (Certs.cons (Cert.play 5 (Cert.stop)) (Certs.cons (Cert.play 5 (Cert.stop)) (Certs.nil)))))))) (Certs.cons (Cert.play 0 (Cert.branch (Certs.cons (Cert.play 8 (Cert.stop)) (Certs.cons (Cert.play 8 (Cert.stop)) (Certs.cons (Cert.play 8 (Cert.stop)) (Certs.cons (Cert.play 8 (Cert.stop)) (Certs.cons (Cert.play 6 (Cert.branch (Certs.cons (Cert.play 2 (Cert.stop)) (Certs.cons (Cert.play 5 (Cert.branch (Certs.cons (Cert.stop) (Certs.nil)))) (Certs.cons (Cert.play 2 (Cert.stop)) (Certs.nil)))))) (Certs.nil)))))))) (Certs.cons (Cert.play 2 (Cert.branch (Certs.cons (Cert.play 6 (Cert.stop)) (Certs.cons (Cert.play 6 (Cert.stop)) (Certs.cons (Cert.play 6 (Cert.stop)) (Certs.cons (Cert.play 8 (Cert.branch (Certs.cons (Cert.play 3 (Cert.branch (Certs.cons (Cert.stop) (Certs.nil)))) (Certs.cons (Cert.play 0 (Cert.stop)) (Certs.cons (Cert.play 0 (Cert.stop)) (Certs.nil)))))) (Certs.cons (Cert.play 6 (Cert.stop)) (Certs.nil)))))))) (Certs.cons (Cert.play 8 (Cert.branch (Certs.cons (Cert.play 3 (Cert.branch (Certs.cons (Cert.play 5 (Cert.stop)) (Certs.cons (Cert.play 5 (Cert.stop)) (Certs.cons (Cert.play 1 (Cert.branch (Certs.cons (Cert.stop) (Certs.nil)))) (Certs.nil)))))) (Certs.cons (Cert.play 0 (Cert.stop)) (Certs.cons (Cert.play 0 (Cert.stop)) (Certs.cons (Cert.play 0 (Cert.stop)) (Certs.cons (Cert.play 0 (Cert.stop)) (Certs.nil)))))))) (Certs.cons (Cert.play 6 (Cert.branch (Certs.cons (Cert.play 2 (Cert.stop)) (Certs.cons (Cert.play 2 (Cert.stop)) (Certs.cons (Cert.play 5 (Cert.branch (Certs.cons (Cert.play 3 (Cert.stop)) (Certs.cons (Cert.play 3 (Cert.stop)) (Certs.cons (Cert.play 0 (Cert.branch (Certs.cons (Cert.stop) (Certs.nil)))) (Certs.nil)))))) (Certs.cons (Cert.play 2 (Cert.stop)) (Certs.cons (Cert.play 2 (Cert.stop)) (Certs.nil)))))))) (Certs.nil)))))))))) (Certs.cons (Cert.play 4 (Cert.branch (Certs.cons (Cert.play 1 (Cert.branch (Certs.cons (Cert.play 7 (Cert.stop)) (Certs.cons (Cert.play 7 (Cert.stop)) (Certs.cons (Cert.play 7 (Cert.stop)) (Certs.cons (Cert.play 7 (Cert.stop)) (Certs.cons (Cert.play 6 (Cert.branch (Certs.cons (Cert.play 5 (Cert.branch (Certs.cons (Cert.stop) (Certs.nil)))) (Certs.cons (Cert.play 2 (Cert.stop)) (Certs.cons (Cert.play 2 (Cert.stop)) (Certs.nil)))))) (Certs.nil)))))))) (Certs.cons (Cert.play 3 (Cert.branch (Certs.cons (Cert.play 5 (Cert.stop)) (Certs.cons (Cert.play 5 (Cert.stop)) (Certs.cons (Cert.play 2 (Cert.branch (Certs.cons (Cert.play 6 (Cert.stop)) (Certs.cons (Cert.play 7 (Cert.branch (Certs.cons (Cert.stop) (Certs.nil)))) (Certs.cons (Cert.play 6 (Cert.stop)) (Certs.nil)))))) (Certs.cons (Cert.play 5 (Cert.stop)) (Certs.cons (Cert.play 5 (Cert.stop)) (Certs.nil)))))))) (Certs.cons (Cert.play 5 (Cert.branch (Certs.cons (Cert.play 3 (Cert.stop)) (Certs.cons (Cert.play 3 (Cert.stop)) (Certs.cons (Cert.play 1 (Cert.branch (Certs.cons (Cert.play 7 (Cert.stop)) (Certs.cons (Cert.play 7 (Cert.stop)) (Certs.cons (Cert.play 6 (Cert.branch (Certs.cons (Cert.stop) (Certs.nil)))) (Certs.nil)))))) (Certs.cons (Cert.play 3 (Cert.stop)) (Certs.cons (Cert.play 3 (Cert.stop)) (Certs.nil)))))))) (Certs.cons (Cert.play 1 (Cert.branch (Certs.cons (Cert.play 7 (Cert.stop)) (Certs.cons (Cert.play 7 (Cert.stop)) (Certs.cons (Cert.play 7 (Cert.stop)) (Certs.cons (Cert.play 7 (Cert.stop)) (Certs.cons (Cert.play 6 (Cert.branch (Certs.cons (Cert.play 2 (Cert.stop)) (Certs.cons (Cert.play 5 (Cert.branch (Certs.cons (Cert.stop) (Certs.nil)))) (Certs.cons (Cert.play 2 (Cert.stop)) (Certs.nil)))))) (Certs.nil)))))))) (Certs.cons (Cert.play 2 (Cert.branch (Certs.cons (Cert.play 6 (Cert.stop)) (Certs.cons (Cert.play 6 (Cert.stop)) (Certs.cons (Cert.play 6 (Cert.stop)) (Certs.cons (Cert.play 7 (Cert.branch (Certs.cons (Cert.play 1 (Cert.stop)) (Certs.cons (Cert.play 0 (Cert.branch (Certs.cons (Cert.stop) (Certs.nil)))) (Certs.cons (Cert.play 1 (Cert.stop)) (Certs.nil)))))) (Certs.cons (Cert.play 6 (Cert.stop)) (Certs.nil)))))))) (Certs.cons (Cert.play 7 (Cert.branch (Certs.cons (Cert.play 1 (Cert.stop)) (Certs.cons (Cert.play 3 (Cert.branch (Certs.cons (Cert.play 5 (Cert.stop)) (Certs.cons (Cert.play 5 (Cert.stop)) (Certs.cons (Cert.play 2 (Cert.branch (Certs.cons (Cert.stop) (Certs.nil)))) (Certs.nil)))))) (Certs.cons (Cert.play 1 (Cert.stop)) (Certs.cons (Cert.play 1 (Cert.stop)) (Certs.cons (Cert.play 1 (Cert.stop)) (Certs.nil)))))))) (Certs.cons (Cert.play 6 (Cert.branch (Certs.cons (Cert.play 2 (Cert.stop)) (Certs.cons (Cert.play 2 (Cert.stop)) (Certs.cons (Cert.play 5 (Cert.branch (Certs.cons (Cert.play 3 (Cert.stop)) (Certs.cons (Cert.play 3 (Cert.stop)) (Certs.cons (Cert.play 0 (Cert.branch (Certs.cons (Cert.stop) (Certs.nil)))) (Certs.nil)))))) (Certs.cons (Cert.play 2 (Cert.stop)) (Certs.cons (Cert.play 2 (Cert.stop)) (Certs.nil)))))))) (Certs.nil)))))))))) (Certs.nil)))))))))

/-- Certificate that X cannot force a win from the empty board (X to move):
at every X node all empty cells are covered, at every O node one reply is
prescribed. -/
def drawLowCert : Cert := Cert.branch drawLowCs

/-- Certificate that O cannot force a win from the empty board (X to move):
X opens in the corner and thereafter one reply is prescribed at X nodes,
all empty cells are covered at O nodes. -/
def drawHighCert : Cert :=
  Cert.play 0 (Cert.branch (Certs.cons (Cert.play 3 (Cert.branch (Certs.cons (Cert.play 6 (Cert.stop)) (Certs.cons (Cert.play 6 (Cert.stop)) (Certs.cons (Cert.play 6 (Cert.stop)) (Certs.cons (Cert.play 4 (Cert.branch (Certs.cons (Cert.play 5 (Cert.stop)) (Certs.cons (Cert.play 8 (Cert.stop)) (Certs.cons (Cert.play 5 (Cert.stop)) (Certs.cons (Cert.play 5 (Cert.stop)) (Certs.nil))))))) (Certs.cons (Cert.play 6 (Cert.stop)) (Certs.cons (Cert.play 6 (Cert.stop)) (Certs.nil))))))))) (Certs.cons (Cert.play 3 (Cert.branch (Certs.cons (Cert.play 6 (Cert.stop)) (Certs.cons (Cert.play 6 (Cert.stop)) (Certs.cons (Cert.play 6 (Cert.stop)) (Certs.cons (Cert.play 4 (Cert.branch (Certs.cons (Cert.play 5 (Cert.stop)) (Certs.cons (Cert.play 8 (Cert.stop)) (Certs.cons (Cert.play 5 (Cert.stop)) (Certs.cons (Cert.play 5 (Cert.stop)) (Certs.nil))))))) (Certs.cons (Cert.play 6 (Cert.stop)) (Certs.cons (Cert.play 6 (Cert.stop)) (Certs.nil))))))))) (Certs.cons (Cert.play 1 (Cert.branch (Certs.cons (Cert.play 4 (Cert.branch (Certs.cons (Cert.play 7 (Cert.stop)) (Certs.cons (Cert.play 7 (Cert.stop)) (Certs.cons (Cert.play 8 (Cert.stop)) (Certs.cons (Cert.play 7 (Cert.stop)) (Certs.nil))))))) (Certs.cons (Cert.play 2 (Cert.stop)) (Certs.cons (Cert.play 2 (Cert.stop)) (Certs.cons (Cert.play 2 (Cert.stop)) (Certs.cons (Cert.play 2 (Cert.stop)) (Certs.cons (Cert.play 2 (Cert.stop)) (Certs.nil))))))))) (Certs.cons (Cert.play 1 (Cert.branch (Certs.cons (Cert.play 6 (Cert.branch (Certs.cons (Cert.play 5 (Cert.branch (Certs.cons (Cert.play 8 (Cert.stop)) (Certs.cons (Cert.play 7 (Cert.stop)) (Certs.nil))))) (Certs.cons (Cert.play 3 (Cert.stop)) (Certs.cons (Cert.play 3 (Cert.stop)) (Certs.cons (Cert.play 3 (Cert.stop)) (Certs.nil))))))) (Certs.cons (Cert.play 2 (Cert.stop)) (Certs.cons (Cert.play 2 (Cert.stop)) (Certs.cons (Cert.play 2 (Cert.stop)) (Certs.cons (Cert.play 2 (Cert.stop)) (Certs.cons (Cert.play 2 (Cert.stop)) (Certs.nil))))))))) (Certs.cons (Cert.play 2 (Cert.branch (Certs.cons (Cert.play 4 (Cert.branch (Certs.cons (Cert.play 6 (Cert.stop)) (Certs.cons (Cert.play 8 (Cert.stop)) (Certs.cons (Cert.play 6 (Cert.stop)) (Certs.cons (Cert.play 6 (Cert.stop)) (Certs.nil))))))) (Certs.cons (Cert.play 1 (Cert.stop)) (Certs.cons (Cert.play 1 (Cert.stop)) (Certs.cons (Cert.play 1 (Cert.stop)) (Certs.cons (Cert.play 1 (Cert.stop)) (Certs.cons (Cert.play 1 (Cert.stop)) (Certs.nil))))))))) (Certs.cons (Cert.play 1 (Cert.branch (Certs.cons (Cert.play 4 (Cert.branch (Certs.cons (Cert.play 7 (Cert.stop)) (Certs.cons (Cert.play 7 (Cert.stop)) (Certs.cons (Cert.play 8 (Cert.stop)) (Certs.cons (Cert.play 7 (Cert.stop)) (Certs.nil))))))) (Certs.cons (Cert.play 2 (Cert.stop)) (Certs.cons (Cert.play 2 (Cert.stop)) (Certs.cons (Cert.play 2 (Cert.stop)) (Certs.cons (Cert.play 2 (Cert.stop)) (Certs.cons (Cert.play 2 (Cert.stop)) (Certs.nil))))))))) (Certs.cons (Cert.play 2 (Cert.branch (Certs.cons (Cert.play 4 (Cert.branch (Certs.cons (Cert.play 6 (Cert.stop)) (Certs.cons (Cert.play 6 (Cert.stop)) (Certs.cons (Cert.play 8 (Cert.stop)) (Certs.cons (Cert.play 6 (Cert.stop)) (Certs.nil))))))) (Certs.cons (Cert.play 1 (Cert.stop)) (Certs.cons (Cert.play 1 (Cert.stop)) (Certs.cons (Cert.play 1 (Cert.stop)) (Certs.cons (Cert.play 1 (Cert.stop)) (Certs.cons (Cert.play 1 (Cert.stop)) (Certs.nil))))))))) (Certs.cons (Cert.play 2 (Cert.branch (Certs.cons (Cert.play 6 (Cert.branch (Certs.cons (Cert.play 4 (Cert.stop)) (Certs.cons (Cert.play 3 (Cert.stop)) (Certs.cons (Cert.play 3 (Cert.stop)) (Certs.cons (Cert.play 3 (Cert.stop)) (Certs.nil))))))) (Certs.cons (Cert.play 1 (Cert.stop)) (Certs.cons (Cert.play 1 (Cert.stop)) (Certs.cons (Cert.play 1 (Cert.stop)) (Certs.cons (Cert.play 1 (Cert.stop)) (Certs.cons (Cert.play 1 (Cert.stop)) (Certs.nil))))))))) (Certs.nil))))))))))

/-! ## List helpers -/

lemma getD_set_self : ∀ (l : List Mark) (i : Nat) (m : Mark), i < l.length →
    (l.set i m).getD i E = m
  | _ :: _, 0, _, _ => rfl
  | _ :: l, i + 1, m, h => getD_set_self l i m (Nat.lt_of_succ_lt_succ h)

lemma getD_set_other : ∀ (l : List Mark) (i j : Nat) (m : Mark), i ≠ j →
    (l.set i m).getD j E = l.getD j E
  | [], _, _, _, _ => rfl
  | _ :: _, 0, 0, _, h => absurd rfl h
  | _ :: _, 0, _ + 1, _, _ => rfl
  | _ :: _, _ + 1, 0, _, _ => rfl
  | _ :: l, i + 1, j + 1, m, h =>
    getD_set_other l i j m (fun hij => h (congrArg Nat.succ hij))

lemma set_of_getD_eq : ∀ (l : List Mark) (i : Nat), l.getD i E = E → l.set i E = l
  | [], _, _ => rfl
  | _ :: _, 0, h => by simp_all [List.getD]
  | a :: l, i + 1, h => by
    have := set_of_getD_eq l i h
    simp [List.set, this]

lemma set_set_same : ∀ (l : List Mark) (i : Nat) (a b : Mark),
    (l.set i a).set i b = l.set i b
  | [], _, _, _ => rfl
  | _ :: _, 0, _, _ => rfl
  | x :: l, i + 1, a, b => by simp [List.set, set_set_same l i a b]

lemma count_set_succ : ∀ (l : List Mark) (i : Nat) (m : Mark), i < l.length →
    l.getD i E = E → m ≠ E → (l.set i m).count E + 1 = l.count E
  | [], _, _, h, _, _ => absurd h (Nat.not_lt_zero _)
  | a :: l, 0, m, _, hE, hm => by
    have ha : a = E := by simpa [List.getD] using hE
    subst ha
    simp [List.set, List.count_cons, hm]
  | a :: l, i + 1, m, h, hE, hm => by
    have := count_set_succ l i m (Nat.lt_of_succ_lt_succ h) hE hm
    simp only [List.set, List.count_cons]
    omega

lemma contains_iff_exists : ∀ (l : List Mark),
    l.contains E = true ↔ ∃ i, i < l.length ∧ l.getD i E = E := by
  intro l
  induction l with
  | nil => simp
  | cons a l ih =>
    constructor
    · intro h
      rcases (by simpa using h : E = a ∨ E ∈ l) with h | h
      · exact ⟨0, Nat.succ_pos _, by simp [List.getD, h.symm]⟩
      · obtain ⟨i, hi, hE⟩ := ih.mp (by simpa using h)
        exact ⟨i + 1, Nat.succ_lt_succ hi, hE⟩
    · rintro ⟨i, hi, hE⟩
      match i, hi, hE with
      | 0, _, hE => simp [List.getD] at hE; simp [hE]
      | i + 1, hi, hE =>
        have : l.contains E = true := ih.mpr ⟨i, Nat.lt_of_succ_lt_succ hi, hE⟩
        simpa using Or.inr this

/-! ## Python `max` / `min` with a key: first-extremum semantics -/

/-- The fold underlying `pyMaxBy`: result provenance, bounds, and the
first-maximum property on lists whose indices strictly ascend. -/
lemma foldMax_char : ∀ (ms : List (Int × Nat)) (acc : Int × Nat),
    (∀ x ∈ ms, acc.2 < x.2) → ms.Pairwise (fun a b => a.2 < b.2) →
    (ms.foldl (fun best x => if best.1 < x.1 then x else best) acc = acc ∨
      ms.foldl (fun best x => if best.1 < x.1 then x else best) acc ∈ ms) ∧
    acc.1 ≤ (ms.foldl (fun best x => if best.1 < x.1 then x else best) acc).1 ∧
    (∀ x ∈ ms, x.1 ≤ (ms.foldl (fun best x => if best.1 < x.1 then x else best) acc).1) ∧
    (∀ x, (x = acc ∨ x ∈ ms) →
      x.2 < (ms.foldl (fun best x => if best.1 < x.1 then x else best) acc).2 →
      x.1 < (ms.foldl (fun best x => if best.1 < x.1 then x else best) acc).1) := by
  intro ms
  induction ms with
  | nil =>
    intro acc _ _
    refine ⟨Or.inl rfl, le_refl _, by simp, ?_⟩
    rintro x (rfl | hx) hlt
    · exact absurd hlt (lt_irrefl _)
    · simp at hx
  | cons y ys ih =>
    intro acc hacc hpw
    have hy : acc.2 < y.2 := hacc y (List.mem_cons_self y ys)
    have hys : ∀ x ∈ ys, y.2 < x.2 := fun x hx => (List.pairwise_cons.mp hpw).1 x hx
    have hpw' : ys.Pairwise (fun a b => a.2 < b.2) := (List.pairwise_cons.mp hpw).2
    set acc1 := if acc.1 < y.1 then y else acc with hacc1
    have hacc1mem : acc1 = y ∨ acc1 = acc := by
      by_cases h : acc.1 < y.1 <;> simp [hacc1, h]
    have hstep : ∀ x ∈ ys, acc1.2 < x.2 := by
      intro x hx
      rcases hacc1mem with h | h <;> rw [h]
      · exact hys x hx
      · exact lt_trans hy (hys x hx)
    obtain ⟨hmem, hle, hall, hfirst⟩ := ih acc1 hstep hpw'
    set r := ys.foldl (fun best x => if best.1 < x.1 then x else best) acc1 with hr
    have hfold : (y :: ys).foldl (fun best x => if best.1 < x.1 then x else best) acc = r := by
      simp [List.foldl, hacc1, hr]
    rw [hfold]
    have hacc1le : acc1.1 ≤ r.1 := hle
    refine ⟨?_, ?_, ?_, ?_⟩
    · rcases hmem with h | h
      · rcases hacc1mem with h2 | h2
        · exact Or.inr (h ▸ h2 ▸ List.mem_cons_self y ys)
        · exact Or.inl (h.trans h2)
      · exact Or.inr (List.mem_cons_of_mem y h)
    · rcases hacc1mem with h | h
      · by_cases hcase : acc.1 < y.1
        · have : acc1 = y := by simp [hacc1, hcase]
          calc acc.1 ≤ y.1 := le_of_lt hcase
            _ = acc1.1 := by rw [this]
            _ ≤ r.1 := hacc1le
        · have heq : acc1 = acc := by simp [hacc1, hcase]
          exact heq ▸ hacc1le
      · exact h ▸ hacc1le
    · intro x hx
      rcases List.mem_cons.mp hx with rfl | hx'
      · rcases hacc1mem with h | h
        · exact h ▸ hacc1le
        · have hyacc : ¬ acc.1 < x.1 := by
            intro hcon
            have : acc1 = x := by simp [hacc1, hcon]
            rw [this] at h
            subst h
            exact absurd hy (lt_irrefl _)
          rcases hmem with hm | hm
          · exact le_trans (le_of_not_lt hyacc) (h ▸ hacc1le)
          · have hx2r : x.2 < r.2 := hys r hm
            have : acc1.2 < r.2 := h ▸ lt_trans hy hx2r
            have := hfirst acc1 (Or.inl rfl) this
            exact le_trans (le_of_not_lt hyacc) (le_of_lt (h ▸ this))
      · exact hall x hx'
    · rintro x (rfl | hx) hlt
      · rcases hacc1mem with h | h
        · have : x.1 < acc1.1 := by
            by_cases hcase : x.1 < y.1
            · exact h ▸ hcase
            · exfalso
              have : acc1 = x := by simp [hacc1, hcase]
              rw [this] at h
              subst h
              exact absurd hy (lt_irrefl _)
          exact lt_of_lt_of_le this hacc1le
        · exact hfirst x (Or.inl h.symm) hlt
      · rcases List.mem_cons.mp hx with rfl | hx'
        · rcases hacc1mem with h | h
          · exact hfirst x (Or.inl h.symm) hlt
          · rcases hmem with hm | hm
            · rw [hm, h] at hlt
              exact absurd (lt_trans hy hlt) (lt_irrefl _)
            · have hx2r : x.2 < r.2 := hys r hm
              have haccr : acc.2 < r.2 := lt_trans hy hx2r
              have hacclt := hfirst acc1 (Or.inl rfl) (h ▸ haccr)
              have hxacc : ¬ acc.1 < x.1 := by
                intro hcon
                have : acc1 = x := by simp [hacc1, hcon]
                rw [this] at h
                subst h
                exact absurd hy (lt_irrefl _)
              calc x.1 ≤ acc.1 := le_of_not_lt hxacc
                _ = acc1.1 := by rw [h]
                _ < r.1 := hacclt
        · exact hfirst x (Or.inr hx') hlt

/-- The fold underlying `pyMinBy`: mirror image of `foldMax_char`. -/
lemma foldMin_char : ∀ (ms : List (Int × Nat)) (acc : Int × Nat),
    (∀ x ∈ ms, acc.2 < x.2) → ms.Pairwise (fun a b => a.2 < b.2) →
    (ms.foldl (fun best x => if x.1 < best.1 then x else best) acc = acc ∨
      ms.foldl (fun best x => if x.1 < best.1 then x else best) acc ∈ ms) ∧
    (ms.foldl (fun best x => if x.1 < best.1 then x else best) acc).1 ≤ acc.1 ∧
    (∀ x ∈ ms, (ms.foldl (fun best x => if x.1 < best.1 then x else best) acc).1 ≤ x.1) ∧
    (∀ x, (x = acc ∨ x ∈ ms) →
      x.2 < (ms.foldl (fun best x => if x.1 < best.1 then x else best) acc).2 →
      (ms.foldl (fun best x => if x.1 < best.1 then x else best) acc).1 < x.1) := by
  intro ms
  induction ms with
  | nil =>
    intro acc _ _
    refine ⟨Or.inl rfl, le_refl _, by simp, ?_⟩
    rintro x (rfl | hx) hlt
    · exact absurd hlt (lt_irrefl _)
    · simp at hx
  | cons y ys ih =>
    intro acc hacc hpw
    have hy : acc.2 < y.2 := hacc y (List.mem_cons_self y ys)
    have hys : ∀ x ∈ ys, y.2 < x.2 := fun x hx => (List.pairwise_cons.mp hpw).1 x hx
    have hpw' : ys.Pairwise (fun a b => a.2 < b.2) := (List.pairwise_cons.mp hpw).2
    set acc1 := if y.1 < acc.1 then y else acc with hacc1
    have hacc1mem : acc1 = y ∨ acc1 = acc := by
      by_cases h : y.1 < acc.1 <;> simp [hacc1, h]
    have hstep : ∀ x ∈ ys, acc1.2 < x.2 := by
      intro x hx
      rcases hacc1mem with h | h <;> rw [h]
      · exact hys x hx
      · exact lt_trans hy (hys x hx)
    obtain ⟨hmem, hle, hall, hfirst⟩ := ih acc1 hstep hpw'
    set r := ys.foldl (fun best x => if x.1 < best.1 then x else best) acc1 with hr
    have hfold : (y :: ys).foldl (fun best x => if x.1 < best.1 then x else best) acc = r := by
      simp [List.foldl, hacc1, hr]
    rw [hfold]
    have hacc1le : r.1 ≤ acc1.1 := hle
    refine ⟨?_, ?_, ?_, ?_⟩
    · rcases hmem with h | h
      · rcases hacc1mem with h2 | h2
        · exact Or.inr (h ▸ h2 ▸ List.mem_cons_self y ys)
        · exact Or.inl (h.trans h2)
      · exact Or.inr (List.mem_cons_of_mem y h)
    · rcases hacc1mem with h | h
      · by_cases hcase : y.1 < acc.1
        · have heq : acc1 = y := by simp [hacc1, hcase]
          calc r.1 ≤ acc1.1 := hacc1le
            _ = y.1 := by rw [heq]
            _ ≤ acc.1 := le_of_lt hcase
        · have heq : acc1 = acc := by simp [hacc1, hcase]
          exact heq ▸ hacc1le
      · exact h ▸ hacc1le
    · intro x hx
      rcases List.mem_cons.mp hx with rfl | hx'
      · rcases hacc1mem with h | h
        · exact h ▸ hacc1le
        · have hyacc : ¬ x.1 < acc.1 := by
            intro hcon
            have : acc1 = x := by simp [hacc1, hcon]
            rw [this] at h
            subst h
            exact absurd hy (lt_irrefl _)
          rcases hmem with hm | hm
          · exact le_trans (h ▸ hacc1le) (le_of_not_lt hyacc)
          · have hx2r : x.2 < r.2 := hys r hm
            have : acc1.2 < r.2 := h ▸ lt_trans hy hx2r
            have := hfirst acc1 (Or.inl rfl) this
            exact le_trans (le_of_lt (h ▸ this)) (le_of_not_lt hyacc)
      · exact hall x hx'
    · rintro x (rfl | hx) hlt
      · rcases hacc1mem with h | h
        · have : acc1.1 < x.1 := by
            by_cases hcase : y.1 < x.1
            · exact h ▸ hcase
            · exfalso
              have : acc1 = x := by simp [hacc1, hcase]
              rw [this] at h
              subst h
              exact absurd hy (lt_irrefl _)
          exact lt_of_le_of_lt hacc1le this
        · exact hfirst x (Or.inl h.symm) hlt
      · rcases List.mem_cons.mp hx with rfl | hx'
        · rcases hacc1mem with h | h
          · exact hfirst x (Or.inl h.symm) hlt
          · rcases hmem with hm | hm
            · rw [hm, h] at hlt
              exact absurd (lt_trans hy hlt) (lt_irrefl _)
            · have hx2r : x.2 < r.2 := hys r hm
              have haccr : acc.2 < r.2 := lt_trans hy hx2r
              have hacclt := hfirst acc1 (Or.inl rfl) (h ▸ haccr)
              have hxacc : ¬ x.1 < acc.1 := by
                intro hcon
                have : acc1 = x := by simp [hacc1, hcon]
                rw [this] at h
                subst h
                exact absurd hy (lt_irrefl _)
              calc r.1 < acc1.1 := hacclt
                _ = acc.1 := by rw [h]
                _ ≤ x.1 := le_of_not_lt hxacc
        · exact hfirst x (Or.inr hx') hlt

/-! ## Winner detection bridges -/

lemma get_win_patterns_eq :
    get_win_patterns =
      [[0,1,2],[3,4,5],[6,7,8],[0,3,6],[1,4,7],[2,5,8],[0,4,8],[2,4,6]] := by
  decide

lemma line_wins_iff (b : List Mark) (a c d : Nat) :
    line_wins b [a, c, d] = true ↔
      (b.getD a E ≠ E ∧ b.getD a E = b.getD c E ∧ b.getD a E = b.getD d E) := by
  simp [line_wins, and_assoc]

/-- Each winning-line triple has a matching pattern list in
`get_win_patterns`, and `line_wins` holds on it for an owned line. -/
lemma hasLine_exists_pattern (b : List Mark) (m : Mark) (hm : m ≠ E)
    (h : hasLine b m) : ∃ pat ∈ get_win_patterns, line_wins b pat = true := by
  obtain ⟨t, ht, h1, h2, h3⟩ := h
  have key : ∀ a c d : Nat, b.getD a E = m → b.getD c E = m → b.getD d E = m →
      line_wins b [a, c, d] = true := by
    intro a c d e1 e2 e3
    exact (line_wins_iff b a c d).mpr ⟨e1 ▸ hm, by rw [e1, e2], by rw [e1, e3]⟩
  rw [get_win_patterns_eq]
  simp only [linesSpec, List.mem_cons, List.not_mem_nil, or_false] at ht
  rcases ht with rfl | rfl | rfl | rfl | rfl | rfl | rfl | rfl <;>
    [exact ⟨[0,1,2], by simp, key 0 1 2 h1 h2 h3⟩;
     exact ⟨[3,4,5], by simp, key 3 4 5 h1 h2 h3⟩;
     exact ⟨[6,7,8], by simp, key 6 7 8 h1 h2 h3⟩;
     exact ⟨[0,3,6], by simp, key 0 3 6 h1 h2 h3⟩;
     exact ⟨[1,4,7], by simp, key 1 4 7 h1 h2 h3⟩;
     exact ⟨[2,5,8], by simp, key 2 5 8 h1 h2 h3⟩;
     exact ⟨[0,4,8], by simp, key 0 4 8 h1 h2 h3⟩;
     exact ⟨[2,4,6], by simp, key 2 4 6 h1 h2 h3⟩]

/-- A pattern on which `line_wins` holds is owned by its (non-empty) first
cell's mark, which therefore has a winning line. -/
lemma line_wins_owner (b : List Mark) (pat : List Nat)
    (hpat : pat ∈ get_win_patterns) (h : line_wins b pat = true) :
    b.getD (pat.headD 0) E ≠ E ∧ hasLine b (b.getD (pat.headD 0) E) := by
  rw [get_win_patterns_eq] at hpat
  simp only [List.mem_cons, List.not_mem_nil, or_false] at hpat
  have key : ∀ a c d : Nat, (a, c, d) ∈ linesSpec → line_wins b [a, c, d] = true →
      b.getD ([a, c, d].headD 0) E ≠ E ∧ hasLine b (b.getD ([a, c, d].headD 0) E) := by
    intro a c d hmem hw
    obtain ⟨h1, h2, h3⟩ := (line_wins_iff b a c d).mp hw
    exact ⟨h1, ⟨(a, c, d), hmem, rfl, h2.symm, h3.symm⟩⟩
  rcases hpat with rfl | rfl | rfl | rfl | rfl | rfl | rfl | rfl <;>
    [exact key 0 1 2 (by simp [linesSpec]) h;
     exact key 3 4 5 (by simp [linesSpec]) h;
     exact key 6 7 8 (by simp [linesSpec]) h;
     exact key 0 3 6 (by simp [linesSpec]) h;
     exact key 1 4 7 (by simp [linesSpec]) h;
     exact key 2 5 8 (by simp [linesSpec]) h;
     exact key 0 4 8 (by simp [linesSpec]) h;
     exact key 2 4 6 (by simp [linesSpec]) h]

/-- `check_winner` returns `none` exactly when neither player owns a line. -/
lemma check_winner_eq_none_iff (b : List Mark) :
    check_winner b = none ↔ ¬ hasLine b X ∧ ¬ hasLine b O := by
  constructor
  · intro h
    have hfind : get_win_patterns.find? (line_wins b) = none := by
      unfold check_winner at h
      rcases hf : get_win_patterns.find? (line_wins b) with _ | pat
      · rfl
      · rw [hf] at h
        simp at h
    have hnone := List.find?_eq_none.mp hfind
    constructor
    · intro hX
      obtain ⟨pat, hmem, hw⟩ := hasLine_exists_pattern b X (by simp) hX
      exact hnone pat hmem hw
    · intro hO
      obtain ⟨pat, hmem, hw⟩ := hasLine_exists_pattern b O (by simp) hO
      exact hnone pat hmem hw
  · rintro ⟨hX, hO⟩
    unfold check_winner
    rcases hf : get_win_patterns.find? (line_wins b) with _ | pat
    · rfl
    · exfalso
      have hmem := List.mem_of_find?_eq_some hf
      have hw := List.find?_some hf
      obtain ⟨hne, hhas⟩ := line_wins_owner b pat hmem hw
      cases hm : b.getD (pat.headD 0) E with
      | X => exact hX (hm ▸ hhas)
      | O => exact hO (hm ▸ hhas)
      | E => exact hne hm

/-- With an `m` line and no line for the other player, `check_winner`
returns `some m` (for `m` equal to `X` or `O`). -/
lemma check_winner_eq_some (b : List Mark) (m : Mark) (hm : m = X ∨ m = O)
    (h : hasLine b m) (h2 : ¬ hasLine b (other m)) : check_winner b = some m := by
  unfold check_winner
  rcases hf : get_win_patterns.find? (line_wins b) with _ | pat
  · exfalso
    have hnone := List.find?_eq_none.mp hf
    obtain ⟨pat, hmem, hw⟩ := hasLine_exists_pattern b m (by rcases hm with rfl | rfl <;> simp) h
    exact hnone pat hmem hw
  · have hmem := List.mem_of_find?_eq_some hf
    have hw := List.find?_some hf
    obtain ⟨hne, hhas⟩ := line_wins_owner b pat hmem hw
    cases hcell : b.getD (pat.headD 0) E with
    | E => exact absurd hcell hne
    | X =>
      rcases hm with rfl | rfl
      · simp only [check_winner]
        exact congrArg some hcell
      · exact absurd (hcell ▸ hhas) (by simpa [other] using h2)
    | O =>
      rcases hm with rfl | rfl
      · exact absurd (hcell ▸ hhas) (by simpa [other] using h2)
      · simp only [check_winner]
        exact congrArg some hcell

/-! ## `evaluate_state` characterization -/

lemma filterMap_congr_mem {α β : Type} : ∀ (l : List α) (f g : α → Option β),
    (∀ a ∈ l, f a = g a) → l.filterMap f = l.filterMap g
  | [], _, _, _ => rfl
  | a :: l, f, g, h => by
    have ht := filterMap_congr_mem l f g (fun x hx => h x (List.mem_cons_of_mem a hx))
    simp only [List.filterMap_cons, h a (List.mem_cons_self a l), ht]

lemma pairwise_filterMap_snd (l : List Nat) (hl : l.Pairwise (· < ·))
    (f : Nat → Option (Int × Nat)) (hf : ∀ i x, f i = some x → x.2 = i) :
    (l.filterMap f).Pairwise (fun a b => a.2 < b.2) := by
  induction l with
  | nil => simp
  | cons a l ih =>
    have hl' := List.pairwise_cons.mp hl
    have htail := ih hl'.2
    rcases hfa : f a with _ | b
    · simpa [List.filterMap_cons, hfa] using htail
    · simp only [List.filterMap_cons, hfa]
      refine List.pairwise_cons.mpr ⟨?_, htail⟩
      intro c hc
      obtain ⟨j, hj, hfj⟩ := List.mem_filterMap.mp hc
      rw [hf a b hfa, hf j c hfj]
      exact hl'.1 j hj

lemma movesList_pairwise (b : List Mark) (p : Mark) :
    (movesList b p).Pairwise (fun x y => x.2 < y.2) := by
  apply pairwise_filterMap_snd _ (List.pairwise_lt_range _)
  intro i x h
  split at h
  · exact (Option.some_inj.mp h) ▸ rfl
  · exact absurd h (by simp)

lemma movesList_mem_iff (b : List Mark) (p : Mark) (x : Int × Nat) :
    x ∈ movesList b p ↔
      x.2 < b.length ∧ b.getD x.2 E = E ∧
        x.1 = (evaluate_state (b.set x.2 p) (other p)).1 := by
  unfold movesList
  rw [List.mem_filterMap]
  constructor
  · rintro ⟨i, hi, hfi⟩
    split at hfi
    · next hE =>
      obtain rfl := Option.some_inj.mp hfi
      exact ⟨List.mem_range.mp hi, by simpa using hE, rfl⟩
    · exact absurd hfi (by simp)
  · rintro ⟨hlen, hE, hs⟩
    refine ⟨x.2, List.mem_range.mpr hlen, ?_⟩
    simp only [hE, beq_self_eq_true, if_pos]
    rw [← hs]

lemma count_E_pos_of_contains (b : List Mark) (h : b.contains E = true) :
    0 < b.count E := by
  have hmem : E ∈ b := by simpa using h
  exact List.count_pos_iff.mpr hmem

lemma evaluate_state_winner_X (b : List Mark) (p : Mark)
    (h : check_winner b = some X) : evaluate_state b p = (1, none) := by
  unfold evaluate_state evalFuel
  rw [h]
  rfl

lemma evaluate_state_winner_O (b : List Mark) (p : Mark)
    (h : check_winner b = some O) : evaluate_state b p = (-1, none) := by
  unfold evaluate_state evalFuel
  rw [h]
  rfl

lemma evaluate_state_full (b : List Mark) (p : Mark)
    (hw : check_winner b = none) (h : b.contains E = false) :
    evaluate_state b p = (0, none) := by
  unfold evaluate_state evalFuel
  rw [hw, h]
  rfl

/-- On a non-terminal board, `evaluate_state` is Python's `max`/`min` over
the child `(score, index)` list. -/
lemma evaluate_state_main (b : List Mark) (p : Mark) (hp : p ≠ E)
    (hw : check_winner b = none) (hcE : b.contains E = true) :
    evaluate_state b p =
      match (if p == X then pyMaxBy (movesList b p) else pyMinBy (movesList b p)) with
      | some best => (best.1, some best.2)
      | none => (0, none) := by
  obtain ⟨n, hn⟩ : ∃ n, b.count E = n + 1 := by
    have := count_E_pos_of_contains b hcE
    exact ⟨b.count E - 1, by omega⟩
  have hmoves :
      (List.range b.length).filterMap (fun i =>
        if b.getD i E == E then
          some ((evalFuel n (b.set i p) (other p)).1, i)
        else none) = movesList b p := by
    apply filterMap_congr_mem
    intro i hi
    by_cases hEeq : b.getD i E = E
    · have hcnt : (b.set i p).count E = n :=
        Nat.succ_injective
          ((count_set_succ b i p (List.mem_range.mp hi) hEeq hp).trans hn)
      have hc : (b.getD i E == E) = true := beq_iff_eq.mpr hEeq
      rw [hc]
      simp only [if_true]
      unfold evaluate_state
      rw [hcnt]
    · have hc : (b.getD i E == E) = false := by
        simp only [beq_eq_false_iff_ne, ne_eq]
        exact hEeq
      rw [hc]
      simp
  unfold evaluate_state
  rw [hn]
  unfold evalFuel
  rw [hw, hcE]
  simp only [Bool.not_true, Bool.false_eq_true, if_false]
  rw [hmoves]
  rfl

lemma pyMaxBy_char (l : List (Int × Nat)) (hpw : l.Pairwise (fun a b => a.2 < b.2))
    (hne : l ≠ []) :
    ∃ r, pyMaxBy l = some r ∧ r ∈ l ∧ (∀ x ∈ l, x.1 ≤ r.1) ∧
      (∀ x ∈ l, x.2 < r.2 → x.1 < r.1) := by
  match l, hpw, hne with
  | m :: ms, hpw, _ =>
    have hpc := List.pairwise_cons.mp hpw
    obtain ⟨hmem, hacc, hall, hfirst⟩ := foldMax_char ms m hpc.1 hpc.2
    refine ⟨_, rfl, ?_, ?_, ?_⟩
    · rcases hmem with h | h
      · rw [h]
        exact List.mem_cons_self m ms
      · exact List.mem_cons_of_mem m h
    · intro x hx
      rcases List.mem_cons.mp hx with rfl | hx'
      · exact hacc
      · exact hall x hx'
    · intro x hx
      exact hfirst x (by rcases List.mem_cons.mp hx with rfl | hx' <;> [exact Or.inl rfl; exact Or.inr hx'])

lemma pyMinBy_char (l : List (Int × Nat)) (hpw : l.Pairwise (fun a b => a.2 < b.2))
    (hne : l ≠ []) :
    ∃ r, pyMinBy l = some r ∧ r ∈ l ∧ (∀ x ∈ l, r.1 ≤ x.1) ∧
      (∀ x ∈ l, x.2 < r.2 → r.1 < x.1) := by
  match l, hpw, hne with
  | m :: ms, hpw, _ =>
    have hpc := List.pairwise_cons.mp hpw
    obtain ⟨hmem, hacc, hall, hfirst⟩ := foldMin_char ms m hpc.1 hpc.2
    refine ⟨_, rfl, ?_, ?_, ?_⟩
    · rcases hmem with h | h
      · rw [h]
        exact List.mem_cons_self m ms
      · exact List.mem_cons_of_mem m h
    · intro x hx
      rcases List.mem_cons.mp hx with rfl | hx'
      · exact hacc
      · exact hall x hx'
    · intro x hx
      exact hfirst x (by rcases List.mem_cons.mp hx with rfl | hx' <;> [exact Or.inl rfl; exact Or.inr hx'])

lemma movesList_ne_nil (b : List Mark) (p : Mark) (hcE : b.contains E = true) :
    movesList b p ≠ [] := by
  obtain ⟨i, hi, hE⟩ := (contains_iff_exists b).mp hcE
  intro hnil
  have : ((evaluate_state (b.set i p) (other p)).1, i) ∈ movesList b p :=
    (movesList_mem_iff b p _).mpr ⟨hi, hE, rfl⟩
  rw [hnil] at this
  simp at this

/-- C2: for every board with at least one empty cell and no existing winner,
and every mover mark, `evaluate_state` scans children in ascending index
order and returns the child score/index pair with maximum score when the
mover is X and minimum score when the mover is O, breaking ties by the
first-encountered (lowest) index — equivalently, no child beats the chosen
score and every strictly earlier index scores strictly worse; for a board
with an X winning line it returns `(+1, none)`, for an O winning line
`(-1, none)`, and for a full winnerless board `(0, none)`. -/
theorem c2_evaluate_state_extremum (b : List Mark) (p : Mark)
    (hp : p = X ∨ p = O) :
    (hasLine b X → ¬ hasLine b O → evaluate_state b p = (1, none)) ∧
    (hasLine b O → ¬ hasLine b X → evaluate_state b p = (-1, none)) ∧
    (¬ hasLine b X → ¬ hasLine b O → b.contains E = false →
      evaluate_state b p = (0, none)) ∧
    (¬ hasLine b X → ¬ hasLine b O → b.contains E = true →
      ∃ s j, evaluate_state b p = (s, some j) ∧ (s, j) ∈ movesList b p ∧
        ∀ x ∈ movesList b p,
          (p = X → x.1 ≤ s ∧ (x.2 < j → x.1 < s)) ∧
          (p = O → s ≤ x.1 ∧ (x.2 < j → s < x.1))) := by
  refine ⟨?_, ?_, ?_, ?_⟩
  · intro hX hO
    exact evaluate_state_winner_X b p (check_winner_eq_some b X (Or.inl rfl) hX hO)
  · intro hO hX
    exact evaluate_state_winner_O b p (check_winner_eq_some b O (Or.inr rfl) hO hX)
  · intro hX hO hfull
    exact evaluate_state_full b p ((check_winner_eq_none_iff b).mpr ⟨hX, hO⟩) hfull
  · intro hX hO hcE
    have hw := (check_winner_eq_none_iff b).mpr ⟨hX, hO⟩
    have hp' : p ≠ E := by rcases hp with rfl | rfl <;> simp
    have hmain := evaluate_state_main b p hp' hw hcE
    rcases hp with rfl | rfl
    · obtain ⟨r, hr, hmem, hall, hfirst⟩ :=
        pyMaxBy_char (movesList b X) (movesList_pairwise b X) (movesList_ne_nil b X hcE)
      have hmain2 : evaluate_state b X =
          match pyMaxBy (movesList b X) with
          | some best => (best.1, some best.2)
          | none => (0, none) := hmain
      rw [hr] at hmain2
      refine ⟨r.1, r.2, hmain2, hmem, ?_⟩
      intro x hx
      refine ⟨fun _ => ⟨hall x hx, fun hlt => hfirst x hx hlt⟩, fun hXO => absurd hXO (by simp)⟩
    · obtain ⟨r, hr, hmem, hall, hfirst⟩ :=
        pyMinBy_char (movesList b O) (movesList_pairwise b O) (movesList_ne_nil b O hcE)
      have hmain2 : evaluate_state b O =
          match pyMinBy (movesList b O) with
          | some best => (best.1, some best.2)
          | none => (0, none) := hmain
      rw [hr] at hmain2
      refine ⟨r.1, r.2, hmain2, hmem, ?_⟩
      intro x hx
      refine ⟨fun hOX => absurd hOX (by simp), fun _ => ⟨hall x hx, fun hlt => hfirst x hx hlt⟩⟩

/-- Witness for C2 at a concrete non-terminal board. -/
theorem c2_evaluate_state_extremum_witness :
    (¬ hasLine [X,X,O,O,O,X,X,E,E] X ∧ ¬ hasLine [X,X,O,O,O,X,X,E,E] O ∧
      ([X,X,O,O,O,X,X,E,E] : List Mark).contains E = true) ∧
    (∃ s j, evaluate_state [X,X,O,O,O,X,X,E,E] X = (s, some j) ∧
      (s, j) ∈ movesList [X,X,O,O,O,X,X,E,E] X ∧
      ∀ x ∈ movesList [X,X,O,O,O,X,X,E,E] X,
        (X = X → x.1 ≤ s ∧ (x.2 < j → x.1 < s)) ∧
        (X = O → s ≤ x.1 ∧ (x.2 < j → s < x.1))) :=
  ⟨⟨by decide, by decide, by decide⟩,
    (c2_evaluate_state_extremum [X,X,O,O,O,X,X,E,E] X (Or.inl rfl)).2.2.2
      (by decide) (by decide) (by decide)⟩

/-! ## The shape of the rows produced by `generate_all_states` -/

/-- A row produced by `buildStep` is either an old row or the freshly
inserted non-terminal row for the processed board. -/
lemma buildStep_rows (acc : List Row) (b : List Mark) :
    ∀ r ∈ buildStep acc b, r ∈ acc ∨
      (check_winner b = none ∧ b.contains E = true ∧ is_valid_board b = true ∧
        r = ⟨generate_state_id b (if b.count O < b.count X then O else X), b,
          (if b.count O < b.count X then O else X),
          (evaluate_state b (if b.count O < b.count X then O else X)).2,
          (evaluate_state b (if b.count O < b.count X then O else X)).1, false⟩) := by
  intro r hr
  unfold buildStep at hr
  by_cases hv : is_valid_board b
  · rw [hv] at hr
    simp only [Bool.not_true, Bool.false_eq_true, if_false] at hr
    rcases hw : check_winner b with _ | m
    · rw [hw] at hr
      by_cases hcE : b.contains E
      · rw [hcE] at hr
        simp only [Bool.not_true, Bool.false_eq_true, if_false] at hr
        by_cases hmem : generate_state_id b (if b.count O < b.count X then O else X) ∈
            acc.map Row.state_id
        · simp only [hmem, if_pos] at hr
          exact Or.inl hr
        · simp only [hmem, if_neg, if_false] at hr
          rcases List.mem_append.mp hr with h | h
          · exact Or.inl h
          · simp only [List.mem_singleton] at h
            exact Or.inr ⟨rfl, hcE, hv, h⟩
      · have hcE2 : b.contains E = false := by simpa using hcE
        rw [hcE2] at hr
        simp only [Bool.not_false, if_true] at hr
        exact Or.inl hr
    · rw [hw] at hr
      exact Or.inl hr
  · have hv2 : is_valid_board b = false := by simpa using hv
    rw [hv2] at hr
    simp only [Bool.not_false, if_true] at hr
    exact Or.inl hr

/-- Fold version: rows accumulated by the enumeration loop keep the shape
of the insert in the non-terminal branch. -/
lemma foldBuild_rows : ∀ (boards : List (List Mark)) (acc : List Row),
    (∀ q ∈ acc, check_winner q.board_state = none ∧
      q.board_state.contains E = true ∧ is_valid_board q.board_state = true ∧
      q.next_player =
        (if q.board_state.count O < q.board_state.count X then O else X) ∧
      q.is_terminal = false ∧
      q.best_move = (evaluate_state q.board_state q.next_player).2 ∧
      q.evaluation = (evaluate_state q.board_state q.next_player).1 ∧
      q.state_id = generate_state_id q.board_state q.next_player) →
    ∀ q ∈ boards.foldl buildStep acc, check_winner q.board_state = none ∧
      q.board_state.contains E = true ∧ is_valid_board q.board_state = true ∧
      q.next_player =
        (if q.board_state.count O < q.board_state.count X then O else X) ∧
      q.is_terminal = false ∧
      q.best_move = (evaluate_state q.board_state q.next_player).2 ∧
      q.evaluation = (evaluate_state q.board_state q.next_player).1 ∧
      q.state_id = generate_state_id q.board_state q.next_player := by
  intro boards
  induction boards with
  | nil => intro acc hacc q hq; exact hacc q hq
  | cons b bs ih =>
    intro acc hacc q hq
    refine ih (buildStep acc b) ?_ q hq
    intro q1 hq1
    rcases buildStep_rows acc b q1 hq1 with h | ⟨hw, hcE, hv, rfl⟩
    · exact hacc q1 h
    · exact ⟨hw, hcE, hv, rfl, rfl, rfl, rfl, rfl⟩

/-- Every row of the completed build comes from the insert in the
non-terminal branch, with all its fields as computed there. -/
lemma generate_all_states_rows (s : List Row) (r : Row)
    (hr : r ∈ generate_all_states s) :
    check_winner r.board_state = none ∧ r.board_state.contains E = true ∧
      is_valid_board r.board_state = true ∧
      r.next_player =
        (if r.board_state.count O < r.board_state.count X then O else X) ∧
      r.is_terminal = false ∧
      r.best_move = (evaluate_state r.board_state r.next_player).2 ∧
      r.evaluation = (evaluate_state r.board_state r.next_player).1 ∧
      r.state_id = generate_state_id r.board_state r.next_player :=
  foldBuild_rows (product_tuples 9) [] (by simp) r hr

/-- Row invariant for claim C10: the stored board has no winning line for
either player, keeps an empty cell, satisfies the X/O count parity, is
flagged non-terminal, and its `next_player` is X exactly on equal counts
and O exactly when X leads by one. -/
def rowOk (r : Row) : Bool :=
  decide (¬ hasLine r.board_state X) && decide (¬ hasLine r.board_state O) &&
  r.board_state.contains E &&
  (r.board_state.count X == r.board_state.count O ||
    r.board_state.count X == r.board_state.count O + 1) &&
  (r.is_terminal == false) &&
  (r.next_player ==
    (if r.board_state.count X == r.board_state.count O then X else O))

/-- C10: every row the completed build inserts into `board_states` describes
a non-terminal state: no winning line, at least one empty cell,
`count X − count O ∈ {0, 1}`, `is_terminal = false`, and `next_player` is X
exactly when the counts are equal and O exactly when X leads by one. -/
theorem c10_stored_rows_invariant (s : List Row) :
    (generate_all_states s).all rowOk = true := by
  rw [List.all_eq_true]
  intro r hr
  obtain ⟨hw, hcE, hv, hnp, hterm, -, -, -⟩ := generate_all_states_rows s r hr
  obtain ⟨hX, hO⟩ := (check_winner_eq_none_iff _).mp hw
  have hcounts : r.board_state.count X = r.board_state.count O ∨
      r.board_state.count X = r.board_state.count O + 1 := by
    unfold is_valid_board at hv
    simp only [Bool.or_eq_true, beq_iff_eq] at hv
    omega
  have hmem : E ∈ r.board_state := by simpa using hcE
  rcases hcounts with h | h
  · have hlt : ¬ (r.board_state.count O < r.board_state.count X) := by omega
    simp [rowOk, hX, hO, hmem, hterm, hnp, hlt, h]
  · have hlt : r.board_state.count O < r.board_state.count X := by omega
    have hne : ¬ (r.board_state.count X = r.board_state.count O) := by omega
    simp [rowOk, hX, hO, hmem, hterm, hnp, hlt, h, hne]

/-- C1 counterexample: the valid board `XXXOO----` has a winner (X), yet the
completed build stores no entry whose board is that state — the claim that
terminal entries are written to the store fails at this input. -/
theorem c1_counterexample :
    ¬ ∃ r, r ∈ generate_all_states [] ∧
      r.board_state = [X, X, X, O, O, E, E, E, E] := by
  rintro ⟨r, hr, hb⟩
  have hw := (generate_all_states_rows [] r hr).1
  rw [hb] at hw
  have hx : check_winner [X, X, X, O, O, E, E, E, E] = some X := by decide
  rw [hx] at hw
  exact Option.noConfusion hw

/-- C1 amended: the builder computes terminal evaluations but never writes
them; every row the build stores has no winning line, retains an empty
cell, and is flagged non-terminal — only non-terminal entries are written. -/
theorem c1_only_nonterminal_rows_stored (s : List Row) :
    (generate_all_states s).all (fun r =>
      (check_winner r.board_state == none) && r.board_state.contains E &&
        !r.is_terminal) = true := by
  rw [List.all_eq_true]
  intro r hr
  obtain ⟨hw, hcE, -, -, hterm, -, -, -⟩ := generate_all_states_rows s r hr
  have hmem : E ∈ r.board_state := by simpa using hcE
  simp [hw, hmem, hterm]

/-- C9: the oracle build is deterministic and idempotent — it drops and
recreates the table, so its output ignores the prior store contents:
running it on the output of a previous run reproduces that output, and any
two runs produce identical row lists (hence identical entry sets). -/
theorem c9_build_deterministic_idempotent (s t : List Row) :
    generate_all_states (generate_all_states s) = generate_all_states s ∧
    generate_all_states s = generate_all_states t := by
  constructor
  · show (product_tuples 9).foldl buildStep [] = (product_tuples 9).foldl buildStep []
    rfl
  · show (product_tuples 9).foldl buildStep [] = (product_tuples 9).foldl buildStep []
    rfl

/-! ## `_evaluate_board` bridges and the C3 leaf lemma -/

/-- The pattern scan of `_evaluate_board`: with mover and opponent covering
X and O, it returns 10 when the mover owns a line and the opponent does
not, -10 in the mirrored case, and 0 when neither owns a line. -/
lemma evalPatterns_cases (b : List Mark) (p o : Mark)
    (hpo : (p = X ∧ o = O) ∨ (p = O ∧ o = X)) :
    ∀ ts : List (Nat × Nat × Nat),
      ((∃ t ∈ ts, isLine b p t) → (∀ t ∈ ts, ¬ isLine b o t) →
        evalPatterns b p o ts = 10) ∧
      ((∃ t ∈ ts, isLine b o t) → (∀ t ∈ ts, ¬ isLine b p t) →
        evalPatterns b p o ts = -10) ∧
      ((∀ t ∈ ts, ¬ isLine b p t) → (∀ t ∈ ts, ¬ isLine b o t) →
        evalPatterns b p o ts = 0) := by
  have hpne : p ≠ E := by rcases hpo with ⟨rfl, -⟩ | ⟨rfl, -⟩ <;> simp
  have hone : o ≠ E := by rcases hpo with ⟨-, rfl⟩ | ⟨-, rfl⟩ <;> simp
  intro ts
  induction ts with
  | nil =>
    refine ⟨?_, ?_, fun _ _ => rfl⟩
    · rintro ⟨t, ht, -⟩ _
      simp at ht
    · rintro ⟨t, ht, -⟩ _
      simp at ht
  | cons t ts ih =>
    obtain ⟨ih1, ih2, ih3⟩ := ih
    have howner : b.getD t.1 E = b.getD t.2.1 E → b.getD t.1 E = b.getD t.2.2 E →
        b.getD t.1 E ≠ E → b.getD t.1 E = p ∨ b.getD t.1 E = o := by
      intro _ _ h3
      rcases hpo with ⟨hp1, ho1⟩ | ⟨hp1, ho1⟩ <;> subst hp1 <;> subst ho1 <;>
        rcases hv : b.getD t.1 E with _ | _ | _ <;>
          first
            | exact Or.inl rfl
            | exact Or.inr rfl
            | exact absurd hv h3
    have hline_of_p : isLine b p t →
        (b.getD t.1 E == b.getD t.2.1 E && (b.getD t.1 E == b.getD t.2.2 E) &&
          decide (b.getD t.1 E ≠ E)) = true := by
      rintro ⟨e1, e2, e3⟩
      rw [e1, e2, e3]
      simp [hpne]
    have hline_of_o : isLine b o t →
        (b.getD t.1 E == b.getD t.2.1 E && (b.getD t.1 E == b.getD t.2.2 E) &&
          decide (b.getD t.1 E ≠ E)) = true := by
      rintro ⟨e1, e2, e3⟩
      rw [e1, e2, e3]
      simp [hone]
    refine ⟨?_, ?_, ?_⟩
    · rintro ⟨t0, ht0, hl0⟩ hno
      simp only [evalPatterns]
      split
      · next hcond =>
        rw [Bool.and_eq_true, Bool.and_eq_true] at hcond
        obtain ⟨⟨hc1, hc2⟩, hc3⟩ := hcond
        rw [beq_iff_eq] at hc1 hc2
        have hc3' : b.getD t.1 E ≠ E := by simpa using hc3
        rcases howner hc1 hc2 hc3' with hxp | hxo
        · rw [hxp]
          simp
        · exact absurd ⟨hxo, hc1.symm.trans hxo, hc2.symm.trans hxo⟩
            (hno t (List.mem_cons_self t ts))
      · next hcond =>
        have ht0' : t0 ∈ ts := by
          rcases List.mem_cons.mp ht0 with rfl | h
          · exact absurd (hline_of_p hl0) hcond
          · exact h
        exact ih1 ⟨t0, ht0', hl0⟩ (fun t' ht' => hno t' (List.mem_cons_of_mem t ht'))
    · rintro ⟨t0, ht0, hl0⟩ hnp
      simp only [evalPatterns]
      split
      · next hcond =>
        rw [Bool.and_eq_true, Bool.and_eq_true] at hcond
        obtain ⟨⟨hc1, hc2⟩, hc3⟩ := hcond
        rw [beq_iff_eq] at hc1 hc2
        have hc3' : b.getD t.1 E ≠ E := by simpa using hc3
        rcases howner hc1 hc2 hc3' with hxp | hxo
        · exact absurd ⟨hxp, hc1.symm.trans hxp, hc2.symm.trans hxp⟩
            (hnp t (List.mem_cons_self t ts))
        · have hop : o ≠ p := by
            rcases hpo with ⟨rfl, rfl⟩ | ⟨rfl, rfl⟩ <;> simp
          rw [hxo]
          simp [hop]
      · next hcond =>
        have ht0' : t0 ∈ ts := by
          rcases List.mem_cons.mp ht0 with rfl | h
          · exact absurd (hline_of_o hl0) hcond
          · exact h
        exact ih2 ⟨t0, ht0', hl0⟩ (fun t' ht' => hnp t' (List.mem_cons_of_mem t ht'))
    · intro hnp hno
      simp only [evalPatterns]
      split
      · next hcond =>
        rw [Bool.and_eq_true, Bool.and_eq_true] at hcond
        obtain ⟨⟨hc1, hc2⟩, hc3⟩ := hcond
        rw [beq_iff_eq] at hc1 hc2
        have hc3' : b.getD t.1 E ≠ E := by simpa using hc3
        rcases howner hc1 hc2 hc3' with hxp | hxo
        · exact absurd ⟨hxp, hc1.symm.trans hxp, hc2.symm.trans hxp⟩
            (hnp t (List.mem_cons_self t ts))
        · exact absurd ⟨hxo, hc1.symm.trans hxo, hc2.symm.trans hxo⟩
            (hno t (List.mem_cons_self t ts))
      · next _ =>
        exact ih3 (fun t' ht' => hnp t' (List.mem_cons_of_mem t ht'))
          (fun t' ht' => hno t' (List.mem_cons_of_mem t ht'))

/-- `_evaluate_board` returns 10 when only the player owns a line, -10 when
only the opponent does, and 0 when neither does. -/
lemma evaluateBoard_cases (b : List Mark) (p o : Mark)
    (hpo : (p = X ∧ o = O) ∨ (p = O ∧ o = X)) :
    (hasLine b p → ¬ hasLine b o → evaluateBoard b p o = 10) ∧
    (hasLine b o → ¬ hasLine b p → evaluateBoard b p o = -10) ∧
    (¬ hasLine b p → ¬ hasLine b o → evaluateBoard b p o = 0) := by
  obtain ⟨h1, h2, h3⟩ := evalPatterns_cases b p o hpo agentPatterns
  have hagent : ∀ m : Mark, hasLine b m ↔ ∃ t ∈ agentPatterns, isLine b m t := by
    intro m
    exact Iff.rfl
  refine ⟨?_, ?_, ?_⟩
  · intro hp hno
    exact h1 ((hagent p).mp hp) (fun t ht hl => hno ((hagent o).mpr ⟨t, ht, hl⟩))
  · intro ho hnp
    exact h2 ((hagent o).mp ho) (fun t ht hl => hnp ((hagent p).mpr ⟨t, ht, hl⟩))
  · intro hnp hno
    exact h3 (fun t ht hl => hnp ((hagent p).mpr ⟨t, ht, hl⟩))
      (fun t ht hl => hno ((hagent o).mpr ⟨t, ht, hl⟩))

/-- C3: in the online adversarial search, every leaf reached at recursion
depth `d` is scored `+10 − d` when the searching mark has a winning line
(and the opponent has none), `−10 + d` when the opponent has a winning line
(and the searching mark has none), and `0` when no empty cell remains
without a winner; in each case the board is left unchanged. -/
theorem c3_minimax_leaf_scores (b : List Mark) (fuel depth : Nat)
    (is_max : Bool) (alpha beta : XInt) (p o : Mark)
    (hpo : (p = X ∧ o = O) ∨ (p = O ∧ o = X)) :
    (hasLine b p → ¬ hasLine b o →
      minimaxS fuel b depth is_max alpha beta p o =
        (XInt.fin (10 - (depth : Int)), b)) ∧
    (hasLine b o → ¬ hasLine b p →
      minimaxS fuel b depth is_max alpha beta p o =
        (XInt.fin (-10 + (depth : Int)), b)) ∧
    (¬ hasLine b p → ¬ hasLine b o → movesLeft b = false →
      minimaxS fuel b depth is_max alpha beta p o = (XInt.fin 0, b)) := by
  obtain ⟨e1, e2, e3⟩ := evaluateBoard_cases b p o hpo
  refine ⟨?_, ?_, ?_⟩
  · intro h1 h2
    rw [minimaxS.eq_def, e1 h1 h2]
    rfl
  · intro h1 h2
    rw [minimaxS.eq_def, e2 h1 h2]
    rfl
  · intro h1 h2 h3
    rw [minimaxS.eq_def, e3 h1 h2, h3]
    rfl

/-- Witness for C3 at a concrete won board and depth. -/
theorem c3_minimax_leaf_scores_witness :
    (hasLine [X, X, X, O, O, E, E, E, E] X ∧
      ¬ hasLine [X, X, X, O, O, E, E, E, E] O) ∧
    minimaxS 3 [X, X, X, O, O, E, E, E, E] 2 true XInt.ninf XInt.pinf X O =
      (XInt.fin 8, [X, X, X, O, O, E, E, E, E]) :=
  ⟨⟨by decide, by decide⟩,
    (c3_minimax_leaf_scores [X, X, X, O, O, E, E, E, E] 3 2 true
      XInt.ninf XInt.pinf X O (Or.inl ⟨rfl, rfl⟩)).1 (by decide) (by decide)⟩

/-! ## Unfolding equations for the search, keyed on branch conditions -/

lemma evalPatterns_values (b : List Mark) (p o : Mark) :
    ∀ ts : List (Nat × Nat × Nat),
      evalPatterns b p o ts = 10 ∨ evalPatterns b p o ts = -10 ∨
        evalPatterns b p o ts = 0 := by
  intro ts
  induction ts with
  | nil => exact Or.inr (Or.inr rfl)
  | cons t rest ih =>
    simp only [evalPatterns]
    split
    · split
      · exact Or.inl rfl
      · split
        · exact Or.inr (Or.inl rfl)
        · exact ih
    · exact ih

lemma evaluateBoard_values (b : List Mark) (p o : Mark) :
    evaluateBoard b p o = 10 ∨ evaluateBoard b p o = -10 ∨
      evaluateBoard b p o = 0 :=
  evalPatterns_values b p o agentPatterns

lemma minimaxS_leaf10 (fuel : Nat) (b : List Mark) (d : Nat) (im : Bool)
    (α β : XInt) (p o : Mark) (h : evaluateBoard b p o = 10) :
    minimaxS fuel b d im α β p o = (XInt.fin (10 - (d : Int)), b) := by
  rw [minimaxS.eq_def, h]
  rfl

lemma minimaxS_leafm10 (fuel : Nat) (b : List Mark) (d : Nat) (im : Bool)
    (α β : XInt) (p o : Mark) (h : evaluateBoard b p o = -10) :
    minimaxS fuel b d im α β p o = (XInt.fin (-10 + (d : Int)), b) := by
  rw [minimaxS.eq_def, h]
  rfl

lemma minimaxS_draw (fuel : Nat) (b : List Mark) (d : Nat) (im : Bool)
    (α β : XInt) (p o : Mark) (h : evaluateBoard b p o = 0)
    (hm : movesLeft b = false) :
    minimaxS fuel b d im α β p o = (XInt.fin 0, b) := by
  rw [minimaxS.eq_def, h, hm]
  rfl

lemma minimaxS_stuck (b : List Mark) (d : Nat) (im : Bool)
    (α β : XInt) (p o : Mark) (h : evaluateBoard b p o = 0)
    (hm : movesLeft b = true) :
    minimaxS 0 b d im α β p o = (XInt.fin 0, b) := by
  rw [minimaxS.eq_def, h, hm]
  rfl

lemma minimaxS_rec (f : Nat) (b : List Mark) (d : Nat) (im : Bool)
    (α β : XInt) (p o : Mark) (h : evaluateBoard b p o = 0)
    (hm : movesLeft b = true) :
    minimaxS (f + 1) b d im α β p o =
      if im then maxLoop f (List.range b.length) b d α β p o XInt.ninf
      else minLoop f (List.range b.length) b d α β p o XInt.pinf := by
  rw [minimaxS.eq_def, h, hm]
  rfl

lemma maxLoop_nil (fuel : Nat) (b : List Mark) (d : Nat) (α β : XInt)
    (p o : Mark) (best : XInt) : maxLoop fuel [] b d α β p o best = (best, b) := by
  rw [maxLoop.eq_def]

lemma maxLoop_cons (fuel : Nat) (i : Nat) (rest : List Nat) (b : List Mark)
    (d : Nat) (α β : XInt) (p o : Mark) (best : XInt) :
    maxLoop fuel (i :: rest) b d α β p o best =
      if (b.getD i E == E) = true
      then
        (if xle β (xmax α (xmax best (minimaxS fuel (b.set i p) (d + 1) false α β p o).1)) = true
         then (xmax best (minimaxS fuel (b.set i p) (d + 1) false α β p o).1,
           ((minimaxS fuel (b.set i p) (d + 1) false α β p o).2).set i E)
         else maxLoop fuel rest
           (((minimaxS fuel (b.set i p) (d + 1) false α β p o).2).set i E) d
           (xmax α (xmax best (minimaxS fuel (b.set i p) (d + 1) false α β p o).1)) β p o
           (xmax best (minimaxS fuel (b.set i p) (d + 1) false α β p o).1))
      else maxLoop fuel rest b d α β p o best := by
  rw [maxLoop.eq_def]

lemma maxLoop_skip (fuel : Nat) (i : Nat) (rest : List Nat) (b : List Mark)
    (d : Nat) (α β : XInt) (p o : Mark) (best : XInt)
    (hE : (b.getD i E == E) = false) :
    maxLoop fuel (i :: rest) b d α β p o best =
      maxLoop fuel rest b d α β p o best := by
  rw [maxLoop_cons, hE]
  simp

lemma maxLoop_hit (fuel : Nat) (i : Nat) (rest : List Nat) (b : List Mark)
    (d : Nat) (α β : XInt) (p o : Mark) (best : XInt)
    (hE : (b.getD i E == E) = true) :
    maxLoop fuel (i :: rest) b d α β p o best =
      if xle β (xmax α (xmax best (minimaxS fuel (b.set i p) (d + 1) false α β p o).1))
      then (xmax best (minimaxS fuel (b.set i p) (d + 1) false α β p o).1,
        ((minimaxS fuel (b.set i p) (d + 1) false α β p o).2).set i E)
      else maxLoop fuel rest
        (((minimaxS fuel (b.set i p) (d + 1) false α β p o).2).set i E) d
        (xmax α (xmax best (minimaxS fuel (b.set i p) (d + 1) false α β p o).1)) β p o
        (xmax best (minimaxS fuel (b.set i p) (d + 1) false α β p o).1) := by
  rw [maxLoop_cons, hE]
  simp

lemma minLoop_nil (fuel : Nat) (b : List Mark) (d : Nat) (α β : XInt)
    (p o : Mark) (best : XInt) : minLoop fuel [] b d α β p o best = (best, b) := by
  rw [minLoop.eq_def]

lemma minLoop_cons (fuel : Nat) (i : Nat) (rest : List Nat) (b : List Mark)
    (d : Nat) (α β : XInt) (p o : Mark) (best : XInt) :
    minLoop fuel (i :: rest) b d α β p o best =
      if (b.getD i E == E) = true
      then
        (if xle (xmin β (xmin best (minimaxS fuel (b.set i o) (d + 1) true α β p o).1)) α = true
         then (xmin best (minimaxS fuel (b.set i o) (d + 1) true α β p o).1,
           ((minimaxS fuel (b.set i o) (d + 1) true α β p o).2).set i E)
         else minLoop fuel rest
           (((minimaxS fuel (b.set i o) (d + 1) true α β p o).2).set i E) d
           α (xmin β (xmin best (minimaxS fuel (b.set i o) (d + 1) true α β p o).1)) p o
           (xmin best (minimaxS fuel (b.set i o) (d + 1) true α β p o).1))
      else minLoop fuel rest b d α β p o best := by
  rw [minLoop.eq_def]

lemma minLoop_skip (fuel : Nat) (i : Nat) (rest : List Nat) (b : List Mark)
    (d : Nat) (α β : XInt) (p o : Mark) (best : XInt)
    (hE : (b.getD i E == E) = false) :
    minLoop fuel (i :: rest) b d α β p o best =
      minLoop fuel rest b d α β p o best := by
  rw [minLoop_cons, hE]
  simp

lemma minLoop_hit (fuel : Nat) (i : Nat) (rest : List Nat) (b : List Mark)
    (d : Nat) (α β : XInt) (p o : Mark) (best : XInt)
    (hE : (b.getD i E == E) = true) :
    minLoop fuel (i :: rest) b d α β p o best =
      if xle (xmin β (xmin best (minimaxS fuel (b.set i o) (d + 1) true α β p o).1)) α
      then (xmin best (minimaxS fuel (b.set i o) (d + 1) true α β p o).1,
        ((minimaxS fuel (b.set i o) (d + 1) true α β p o).2).set i E)
      else minLoop fuel rest
        (((minimaxS fuel (b.set i o) (d + 1) true α β p o).2).set i E) d
        α (xmin β (xmin best (minimaxS fuel (b.set i o) (d + 1) true α β p o).1)) p o
        (xmin best (minimaxS fuel (b.set i o) (d + 1) true α β p o).1) := by
  rw [minLoop_cons, hE]
  simp

lemma rootLoop_nil (b : List Mark) (p o : Mark) (bv : XInt) (bm : Option Nat) :
    rootLoop [] b p o bv bm = (bm, b) := rfl

lemma rootLoop_cons (i : Nat) (rest : List Nat) (b : List Mark) (p o : Mark)
    (bv : XInt) (bm : Option Nat) :
    rootLoop (i :: rest) b p o bv bm =
      if (b.getD i E == E) = true
      then
        (if xlt bv (minimaxS b.length (b.set i p) 0 false XInt.ninf XInt.pinf p o).1 = true
         then rootLoop rest
           (((minimaxS b.length (b.set i p) 0 false XInt.ninf XInt.pinf p o).2).set i E)
           p o (minimaxS b.length (b.set i p) 0 false XInt.ninf XInt.pinf p o).1 (some i)
         else rootLoop rest
           (((minimaxS b.length (b.set i p) 0 false XInt.ninf XInt.pinf p o).2).set i E)
           p o bv bm)
      else rootLoop rest b p o bv bm := rfl

lemma rootLoop_skip (i : Nat) (rest : List Nat) (b : List Mark) (p o : Mark)
    (bv : XInt) (bm : Option Nat) (hE : (b.getD i E == E) = false) :
    rootLoop (i :: rest) b p o bv bm = rootLoop rest b p o bv bm := by
  rw [rootLoop_cons, hE]
  simp

lemma rootLoop_hit (i : Nat) (rest : List Nat) (b : List Mark) (p o : Mark)
    (bv : XInt) (bm : Option Nat) (hE : (b.getD i E == E) = true) :
    rootLoop (i :: rest) b p o bv bm =
      if xlt bv (minimaxS b.length (b.set i p) 0 false XInt.ninf XInt.pinf p o).1
      then rootLoop rest
        (((minimaxS b.length (b.set i p) 0 false XInt.ninf XInt.pinf p o).2).set i E) p o
        (minimaxS b.length (b.set i p) 0 false XInt.ninf XInt.pinf p o).1 (some i)
      else rootLoop rest
        (((minimaxS b.length (b.set i p) 0 false XInt.ninf XInt.pinf p o).2).set i E) p o
        bv bm := by
  rw [rootLoop_cons, hE]
  simp

/-! ## Board restoration (C8) -/

/-- If `minimaxS` at fuel `f` returns its board unchanged, so do both loops
at fuel `f`, on every exit path including the alpha-beta breaks. -/
lemma loops_preserve (f : Nat)
    (hm : ∀ b d im α β p o, (minimaxS f b d im α β p o).2 = b) :
    (∀ idxs b d α β p o best, (maxLoop f idxs b d α β p o best).2 = b) ∧
    (∀ idxs b d α β p o best, (minLoop f idxs b d α β p o best).2 = b) := by
  constructor
  · intro idxs
    induction idxs with
    | nil => intro b d α β p o best; rw [maxLoop_nil]
    | cons i rest ihl =>
      intro b d α β p o best
      rcases hE : (b.getD i E == E) with _ | _
      · rw [maxLoop_skip f i rest b d α β p o best hE]
        exact ihl b d α β p o best
      · have hEe : b.getD i E = E := by simpa using hE
        rw [maxLoop_hit f i rest b d α β p o best hE, hm, set_set_same,
          set_of_getD_eq b i hEe]
        split
        · rfl
        · exact ihl b d _ β p o _
  · intro idxs
    induction idxs with
    | nil => intro b d α β p o best; rw [minLoop_nil]
    | cons i rest ihl =>
      intro b d α β p o best
      rcases hE : (b.getD i E == E) with _ | _
      · rw [minLoop_skip f i rest b d α β p o best hE]
        exact ihl b d α β p o best
      · have hEe : b.getD i E = E := by simpa using hE
        rw [minLoop_hit f i rest b d α β p o best hE, hm, set_set_same,
          set_of_getD_eq b i hEe]
        split
        · rfl
        · exact ihl b d α _ p o _

/-- The search restores the shared board on every exit path. -/
lemma minimaxS_board : ∀ (fuel : Nat) (b : List Mark) (d : Nat) (im : Bool)
    (α β : XInt) (p o : Mark), (minimaxS fuel b d im α β p o).2 = b := by
  intro fuel
  induction fuel with
  | zero =>
    intro b d im α β p o
    rcases evaluateBoard_values b p o with h | h | h
    · rw [minimaxS_leaf10 0 b d im α β p o h]
    · rw [minimaxS_leafm10 0 b d im α β p o h]
    · rcases hm : movesLeft b with _ | _
      · rw [minimaxS_draw 0 b d im α β p o h hm]
      · rw [minimaxS_stuck b d im α β p o h hm]
  | succ f ih =>
    intro b d im α β p o
    rcases evaluateBoard_values b p o with h | h | h
    · rw [minimaxS_leaf10 (f + 1) b d im α β p o h]
    · rw [minimaxS_leafm10 (f + 1) b d im α β p o h]
    · rcases hm : movesLeft b with _ | _
      · rw [minimaxS_draw (f + 1) b d im α β p o h hm]
      · obtain ⟨hmax, hmin⟩ := loops_preserve f ih
        rw [minimaxS_rec f b d im α β p o h hm]
        rcases im with _ | _
        · simp only [Bool.false_eq_true, if_false]
          exact hmin _ b d α β p o _
        · simp only [if_true]
          exact hmax _ b d α β p o _

/-- The root loop of `get_move` also restores the board. -/
lemma rootLoop_board : ∀ (idxs : List Nat) (b : List Mark) (p o : Mark)
    (bv : XInt) (bm : Option Nat), (rootLoop idxs b p o bv bm).2 = b := by
  intro idxs
  induction idxs with
  | nil => intro b p o bv bm; rfl
  | cons i rest ihl =>
    intro b p o bv bm
    rcases hE : (b.getD i E == E) with _ | _
    · rw [rootLoop_skip i rest b p o bv bm hE]
      exact ihl b p o bv bm
    · have hEe : b.getD i E = E := by simpa using hE
      rw [rootLoop_hit i rest b p o bv bm hE, minimaxS_board,
        set_set_same, set_of_getD_eq b i hEe]
      split
      · exact ihl b p o _ _
      · exact ihl b p o bv bm

/-- C8: `MinimaxAgent.get_move` and its recursive helpers restore every
mutation of the shared board before returning, on every exit path including
the alpha-beta pruning breaks: the board after `get_move` equals the board
at entry. -/
theorem c8_get_move_restores_board (b : List Mark) (p : Mark) :
    (get_moveS b p).2 = b :=
  rootLoop_board (List.range b.length) b p (other p) XInt.ninf none

/-! ## Order facts for `XInt` -/

lemma xle_refl (a : XInt) : xle a a = true := by
  cases a <;> simp [xle, xlt]

lemma xle_trans (a b c : XInt) (h1 : xle a b = true) (h2 : xle b c = true) :
    xle a c = true := by
  cases a <;> cases b <;> cases c <;> simp [xle, xlt] at * <;> omega

lemma xle_of_xlt (a b : XInt) (h : xlt a b = true) : xle a b = true := by
  cases a <;> cases b <;> simp [xle, xlt] at * <;> omega

lemma xlt_of_xle_of_xlt (a b c : XInt) (h1 : xle a b = true)
    (h2 : xlt b c = true) : xlt a c = true := by
  cases a <;> cases b <;> cases c <;> simp [xle, xlt] at * <;> omega

lemma xle_of_not_xlt (a b : XInt) (h : xlt a b = false) : xle b a = true := by
  simp [xle, h]

lemma xmax_fin (a : XInt) (n : Int) (h : a = XInt.ninf ∨ ∃ m, a = XInt.fin m) :
    ∃ r, xmax a (XInt.fin n) = XInt.fin r := by
  rcases h with rfl | ⟨m, rfl⟩
  · exact ⟨n, rfl⟩
  · unfold xmax
    by_cases hlt : xlt (XInt.fin m) (XInt.fin n) = true
    · rw [hlt]
      exact ⟨n, rfl⟩
    · rw [Bool.of_not_eq_true hlt]
      exact ⟨m, rfl⟩

lemma xmin_fin (a : XInt) (n : Int) (h : a = XInt.pinf ∨ ∃ m, a = XInt.fin m) :
    ∃ r, xmin a (XInt.fin n) = XInt.fin r := by
  rcases h with rfl | ⟨m, rfl⟩
  · exact ⟨n, rfl⟩
  · unfold xmin
    by_cases hlt : xlt (XInt.fin n) (XInt.fin m) = true
    · rw [hlt]
      exact ⟨n, rfl⟩
    · rw [Bool.of_not_eq_true hlt]
      exact ⟨m, rfl⟩

/-! ## The search always returns a finite value -/

lemma loops_fin (f : Nat)
    (hmf : ∀ b d im α β p o, ∃ n, (minimaxS f b d im α β p o).1 = XInt.fin n) :
    (∀ idxs (b : List Mark) d α β p o best,
      (best = XInt.ninf ∨ ∃ m, best = XInt.fin m) →
      ((∃ m, best = XInt.fin m) ∨ ∃ i ∈ idxs, b.getD i E = E) →
      ∃ n, (maxLoop f idxs b d α β p o best).1 = XInt.fin n) ∧
    (∀ idxs (b : List Mark) d α β p o best,
      (best = XInt.pinf ∨ ∃ m, best = XInt.fin m) →
      ((∃ m, best = XInt.fin m) ∨ ∃ i ∈ idxs, b.getD i E = E) →
      ∃ n, (minLoop f idxs b d α β p o best).1 = XInt.fin n) := by
  constructor
  · intro idxs
    induction idxs with
    | nil =>
      intro b d α β p o best hshape hfin
      rcases hfin with ⟨m, rfl⟩ | ⟨i, hi, -⟩
      · exact ⟨m, by rw [maxLoop_nil]⟩
      · simp at hi
    | cons i rest ihl =>
      intro b d α β p o best hshape hfin
      rcases hE : (b.getD i E == E) with _ | _
      · rw [maxLoop_skip f i rest b d α β p o best hE]
        refine ihl b d α β p o best hshape ?_
        rcases hfin with h | ⟨i0, hi0, hEi0⟩
        · exact Or.inl h
        · rcases List.mem_cons.mp hi0 with rfl | h
          · exact absurd hEi0 (by simpa using hE)
          · exact Or.inr ⟨i0, h, hEi0⟩
      · obtain ⟨v, hv⟩ := hmf (b.set i p) (d + 1) false α β p o
        have hEe : b.getD i E = E := by simpa using hE
        obtain ⟨m1, hm1⟩ := xmax_fin best v hshape
        rw [maxLoop_hit f i rest b d α β p o best hE, hv, hm1,
          minimaxS_board, set_set_same, set_of_getD_eq b i hEe]
        split
        · exact ⟨m1, rfl⟩
        · exact ihl b d _ β p o _ (Or.inr ⟨m1, rfl⟩) (Or.inl ⟨m1, rfl⟩)
  · intro idxs
    induction idxs with
    | nil =>
      intro b d α β p o best hshape hfin
      rcases hfin with ⟨m, rfl⟩ | ⟨i, hi, -⟩
      · exact ⟨m, by rw [minLoop_nil]⟩
      · simp at hi
    | cons i rest ihl =>
      intro b d α β p o best hshape hfin
      rcases hE : (b.getD i E == E) with _ | _
      · rw [minLoop_skip f i rest b d α β p o best hE]
        refine ihl b d α β p o best hshape ?_
        rcases hfin with h | ⟨i0, hi0, hEi0⟩
        · exact Or.inl h
        · rcases List.mem_cons.mp hi0 with rfl | h
          · exact absurd hEi0 (by simpa using hE)
          · exact Or.inr ⟨i0, h, hEi0⟩
      · obtain ⟨v, hv⟩ := hmf (b.set i o) (d + 1) true α β p o
        have hEe : b.getD i E = E := by simpa using hE
        obtain ⟨m1, hm1⟩ := xmin_fin best v hshape
        rw [minLoop_hit f i rest b d α β p o best hE, hv, hm1,
          minimaxS_board, set_set_same, set_of_getD_eq b i hEe]
        split
        · exact ⟨m1, rfl⟩
        · exact ihl b d α _ p o _ (Or.inr ⟨m1, rfl⟩) (Or.inl ⟨m1, rfl⟩)

lemma minimaxS_fin : ∀ (fuel : Nat) (b : List Mark) (d : Nat) (im : Bool)
    (α β : XInt) (p o : Mark), ∃ n, (minimaxS fuel b d im α β p o).1 = XInt.fin n := by
  intro fuel
  induction fuel with
  | zero =>
    intro b d im α β p o
    rcases evaluateBoard_values b p o with h | h | h
    · exact ⟨10 - (d : Int), by rw [minimaxS_leaf10 0 b d im α β p o h]⟩
    · exact ⟨-10 + (d : Int), by rw [minimaxS_leafm10 0 b d im α β p o h]⟩
    · rcases hm : movesLeft b with _ | _
      · exact ⟨0, by rw [minimaxS_draw 0 b d im α β p o h hm]⟩
      · exact ⟨0, by rw [minimaxS_stuck b d im α β p o h hm]⟩
  | succ f ih =>
    intro b d im α β p o
    rcases evaluateBoard_values b p o with h | h | h
    · exact ⟨10 - (d : Int), by rw [minimaxS_leaf10 (f + 1) b d im α β p o h]⟩
    · exact ⟨-10 + (d : Int), by rw [minimaxS_leafm10 (f + 1) b d im α β p o h]⟩
    · rcases hm : movesLeft b with _ | _
      · exact ⟨0, by rw [minimaxS_draw (f + 1) b d im α β p o h hm]⟩
      · obtain ⟨hmax, hmin⟩ := loops_fin f ih
        obtain ⟨i, hi, hEi⟩ := (contains_iff_exists b).mp hm
        rw [minimaxS_rec f b d im α β p o h hm]
        rcases im with _ | _
        · simp only [Bool.false_eq_true, if_false]
          exact hmin (List.range b.length) b d α β p o XInt.pinf (Or.inl rfl)
            (Or.inr ⟨i, List.mem_range.mpr hi, hEi⟩)
        · simp only [if_true]
          exact hmax (List.range b.length) b d α β p o XInt.ninf (Or.inl rfl)
            (Or.inr ⟨i, List.mem_range.mpr hi, hEi⟩)

/-! ## The root loop picks the first argmax (C4) -/

/-- Invariant-carrying characterization of `rootLoop` on an ascending index
list: the result is `none` exactly when no empty cell was available, and a
returned move is an empty cell whose root value no candidate beats, with
strictly earlier candidates scoring strictly worse. -/
lemma rootLoop_char : ∀ (idxs : List Nat) (b : List Mark) (p : Mark)
    (bv : XInt) (bm : Option Nat),
    idxs.Pairwise (· < ·) →
    (∀ i ∈ idxs, i < b.length) →
    ((bm = none ∧ bv = XInt.ninf ∧
        (∀ i, i < b.length → b.getD i E = E → i ∈ idxs)) ∨
      (∃ k, bm = some k ∧ bv = rootVal b p k ∧ k < b.length ∧ b.getD k E = E ∧
        (∀ i, i ∈ idxs → k < i) ∧
        (∀ i, i < b.length → b.getD i E = E → i ∉ idxs →
          xle (rootVal b p i) (rootVal b p k) = true ∧
          (i < k → xlt (rootVal b p i) (rootVal b p k) = true)))) →
    ((rootLoop idxs b p (other p) bv bm).1 = none →
        ∀ i, i < b.length → b.getD i E = E → False) ∧
    (∀ j, (rootLoop idxs b p (other p) bv bm).1 = some j →
        j < b.length ∧ b.getD j E = E ∧
        ∀ i, i < b.length → b.getD i E = E →
          xle (rootVal b p i) (rootVal b p j) = true ∧
          (i < j → xlt (rootVal b p i) (rootVal b p j) = true)) := by
  intro idxs
  induction idxs with
  | nil =>
    intro b p bv bm _ _ hinv
    rcases hinv with ⟨rfl, -, hall⟩ | ⟨k, rfl, -, hklen, hkE, -, hproc⟩
    · exact ⟨fun _ i hi hE => (by simpa using hall i hi hE), by intro j hj; simp [rootLoop] at hj⟩
    · refine ⟨fun h => by simp [rootLoop] at h, ?_⟩
      intro j hj
      have : k = j := by simpa [rootLoop] using hj
      subst this
      exact ⟨hklen, hkE, fun i hi hE => hproc i hi hE (by simp)⟩
  | cons i rest ihl =>
    intro b p bv bm hpw hlen hinv
    have hpw' := (List.pairwise_cons.mp hpw).2
    have hheadlt := (List.pairwise_cons.mp hpw).1
    have hlen' : ∀ i' ∈ rest, i' < b.length := fun i' h => hlen i' (List.mem_cons_of_mem i h)
    have hilen : i < b.length := hlen i (List.mem_cons_self i rest)
    rcases hE : (b.getD i E == E) with _ | _
    · rw [rootLoop_skip i rest b p (other p) bv bm hE]
      have hiE : b.getD i E ≠ E := by simpa using hE
      refine ihl b p bv bm hpw' hlen' ?_
      rcases hinv with ⟨h1, h2, hall⟩ | ⟨k, h1, h2, hklen, hkE, hkidx, hproc⟩
      · refine Or.inl ⟨h1, h2, fun i' hi' hE' => ?_⟩
        rcases List.mem_cons.mp (hall i' hi' hE') with rfl | h
        · exact absurd hE' hiE
        · exact h
      · refine Or.inr ⟨k, h1, h2, hklen, hkE,
          fun i' h => hkidx i' (List.mem_cons_of_mem i h), ?_⟩
        intro i' hi' hE' hnotin
        refine hproc i' hi' hE' ?_
        intro hmem
        rcases List.mem_cons.mp hmem with rfl | h
        · exact absurd hE' hiE
        · exact hnotin h
    · have hEe : b.getD i E = E := by simpa using hE
      have hrv : (minimaxS b.length (b.set i p) 0 false XInt.ninf XInt.pinf p (other p)).1 =
          rootVal b p i := rfl
      rw [rootLoop_hit i rest b p (other p) bv bm hE, minimaxS_board, set_set_same,
        set_of_getD_eq b i hEe, hrv]
      split
      · next hupd =>
        refine ihl b p (rootVal b p i) (some i) hpw' hlen' (Or.inr ⟨i, rfl, rfl, hilen, hEe,
          hheadlt, ?_⟩)
        intro i' hi' hE' hnotin
        by_cases hii : i' = i
        · subst hii
          exact ⟨xle_refl _, fun h => absurd h (lt_irrefl _)⟩
        · have hnotin' : i' ∉ i :: rest := by
            intro hmem
            rcases List.mem_cons.mp hmem with h | h
            · exact hii h
            · exact hnotin h
          rcases hinv with ⟨-, rfl, hall⟩ | ⟨k, -, rfl, -, -, -, hproc⟩
          · exact absurd (hall i' hi' hE') hnotin'
          · obtain ⟨hle, -⟩ := hproc i' hi' hE' hnotin'
            exact ⟨xle_trans _ _ _ hle (xle_of_xlt _ _ hupd),
              fun _ => xlt_of_xle_of_xlt _ _ _ hle hupd⟩
      · next hupd =>
        have hupd' : xlt bv (rootVal b p i) = false := by
          rcases hx : xlt bv (rootVal b p i) with _ | _
          · rfl
          · exact absurd hx hupd
        rcases hinv with ⟨h1, rfl, hall⟩ | ⟨k, h1, rfl, hklen, hkE, hkidx, hproc⟩
        · exfalso
          obtain ⟨n, hn⟩ := minimaxS_fin b.length (b.set i p) 0 false XInt.ninf XInt.pinf
            p (other p)
          have : rootVal b p i = XInt.fin n := by rw [← hrv, hn]
          rw [this] at hupd'
          exact Bool.false_ne_true hupd'.symm
        · subst h1
          refine ihl b p (rootVal b p k) (some k) hpw' hlen' (Or.inr ⟨k, rfl, rfl, hklen, hkE,
            fun i' h => hkidx i' (List.mem_cons_of_mem i h), ?_⟩)
          intro i' hi' hE' hnotin
          by_cases hii : i' = i
          · subst hii
            refine ⟨xle_of_not_xlt _ _ hupd', ?_⟩
            intro hik
            exact absurd (hkidx i' (List.mem_cons_self i' rest)) (by omega)
          · have hnotin' : i' ∉ i :: rest := by
              intro hmem
              rcases List.mem_cons.mp hmem with h | h
              · exact hii h
              · exact hnotin h
            exact hproc i' hi' hE' hnotin'

/-- C4: `MinimaxAgent.get_move` returns `none` iff the board has no empty
cell; otherwise it enumerates empty cells in ascending index order and
returns the first candidate attaining the maximal root value `rootVal`
(whose definition re-initializes the alpha-beta bounds to `(-inf, +inf)`
for each root candidate): no empty cell scores strictly better, and every
strictly earlier empty cell scores strictly worse. -/
theorem c4_get_move_first_argmax (b : List Mark) (p : Mark) :
    (get_move b p = none ↔ b.contains E = false) ∧
    (∀ j, get_move b p = some j → j < b.length ∧ b.getD j E = E ∧
      ∀ i, i < b.length → b.getD i E = E →
        xle (rootVal b p i) (rootVal b p j) = true ∧
        (i < j → xlt (rootVal b p i) (rootVal b p j) = true)) := by
  obtain ⟨hnone, hsome⟩ := rootLoop_char (List.range b.length) b p XInt.ninf none
    (List.pairwise_lt_range _) (fun i hi => List.mem_range.mp hi)
    (Or.inl ⟨rfl, rfl, fun i hi _ => List.mem_range.mpr hi⟩)
  constructor
  · constructor
    · intro h
      rcases hc : b.contains E with _ | _
      · rfl
      · obtain ⟨i, hi, hEi⟩ := (contains_iff_exists b).mp hc
        exact absurd (hnone h i hi hEi) (fun h => h)
    · intro h
      rcases hg : get_move b p with _ | j
      · rfl
      · obtain ⟨hjlen, hjE, -⟩ := hsome j hg
        have : b.contains E = true := (contains_iff_exists b).mpr ⟨j, hjlen, hjE⟩
        rw [this] at h
        exact absurd h (by simp)
  · exact hsome

/-- Witness for C4 at a concrete board with a single empty cell. -/
theorem c4_get_move_first_argmax_witness :
    (get_move [X, O, X, O, X, O, X, O, E] O = some 8) ∧
    (8 < ([X, O, X, O, X, O, X, O, E] : List Mark).length ∧
      ([X, O, X, O, X, O, X, O, E] : List Mark).getD 8 E = E ∧
      ∀ i, i < ([X, O, X, O, X, O, X, O, E] : List Mark).length →
        ([X, O, X, O, X, O, X, O, E] : List Mark).getD i E = E →
        xle (rootVal [X, O, X, O, X, O, X, O, E] O i)
          (rootVal [X, O, X, O, X, O, X, O, E] O 8) = true ∧
        (i < 8 → xlt (rootVal [X, O, X, O, X, O, X, O, E] O i)
          (rootVal [X, O, X, O, X, O, X, O, E] O 8) = true)) := by
  have hg : get_move [X, O, X, O, X, O, X, O, E] O = some 8 := by
    show (rootLoop (List.range (([X, O, X, O, X, O, X, O, E] : List Mark).length))
      [X, O, X, O, X, O, X, O, E] O (other O) XInt.ninf none).1 = some 8
    rw [show List.range (([X, O, X, O, X, O, X, O, E] : List Mark).length) =
      [0, 1, 2, 3, 4, 5, 6, 7, 8] from rfl]
    rw [rootLoop_skip 0 _ _ _ _ _ _ (by decide), rootLoop_skip 1 _ _ _ _ _ _ (by decide),
      rootLoop_skip 2 _ _ _ _ _ _ (by decide), rootLoop_skip 3 _ _ _ _ _ _ (by decide),
      rootLoop_skip 4 _ _ _ _ _ _ (by decide), rootLoop_skip 5 _ _ _ _ _ _ (by decide),
      rootLoop_skip 6 _ _ _ _ _ _ (by decide), rootLoop_skip 7 _ _ _ _ _ _ (by decide),
      rootLoop_hit 8 _ _ _ _ _ _ (by decide),
      minimaxS_leafm10 _ _ _ _ _ _ _ _ (by decide)]
    decide
  exact ⟨hg, (c4_get_move_first_argmax [X, O, X, O, X, O, X, O, E] O).2 8 hg⟩

/-! ## Oracle agent (C6) and state-id agreement (C7) -/

lemma get_random_move_none_iff (b : List Mark) (r : Nat) :
    get_random_move b r = none ↔ b.contains E = false := by
  simp only [get_random_move]
  constructor
  · intro h
    split at h
    · next hemp =>
      rcases hc : b.contains E with _ | _
      · rfl
      · obtain ⟨i, hi, hEi⟩ := (contains_iff_exists b).mp hc
        have : i ∈ (List.range b.length).filter (fun i => b.getD i E == E) :=
          List.mem_filter.mpr ⟨List.mem_range.mpr hi, by simpa using hEi⟩
        rw [List.isEmpty_iff] at hemp
        rw [hemp] at this
        simp at this
    · exact absurd h (by simp)
  · intro h
    have : ((List.range b.length).filter (fun i => b.getD i E == E)) = [] := by
      rcases hl : (List.range b.length).filter (fun i => b.getD i E == E) with _ | ⟨i, t⟩
      · rfl
      · exfalso
        have hi : i ∈ (List.range b.length).filter (fun i => b.getD i E == E) := by
          rw [hl]
          exact List.mem_cons_self i t
        obtain ⟨hir, hiE⟩ := List.mem_filter.mp hi
        have : b.contains E = true :=
          (contains_iff_exists b).mpr ⟨i, List.mem_range.mp hir, by simpa using hiE⟩
        rw [this] at h
        exact absurd h (by simp)
    rw [this]
    rfl

lemma get_random_move_empty_cell (b : List Mark) (r : Nat) (j : Nat)
    (h : get_random_move b r = some j) : j < b.length ∧ b.getD j E = E := by
  simp only [get_random_move] at h
  split at h
  · exact absurd h (by simp)
  · next hemp =>
    have hne : ((List.range b.length).filter (fun i => b.getD i E == E)) ≠ [] := by
      intro hc
      rw [List.isEmpty_iff] at hemp
      exact hemp hc
    have hlen : 0 < ((List.range b.length).filter (fun i => b.getD i E == E)).length :=
      List.length_pos.mpr hne
    have hidx : r % ((List.range b.length).filter (fun i => b.getD i E == E)).length <
        ((List.range b.length).filter (fun i => b.getD i E == E)).length :=
      Nat.mod_lt r hlen
    obtain rfl : ((List.range b.length).filter (fun i => b.getD i E == E)).getD
        (r % ((List.range b.length).filter (fun i => b.getD i E == E)).length) 0 = j :=
      Option.some_inj.mp h
    have hmem : ((List.range b.length).filter (fun i => b.getD i E == E)).getD
        (r % ((List.range b.length).filter (fun i => b.getD i E == E)).length) 0 ∈
        (List.range b.length).filter (fun i => b.getD i E == E) := by
      rw [List.getD_eq_getElem?_getD, List.getElem?_eq_getElem hidx]
      exact List.getElem_mem hidx
    obtain ⟨hir, hiE⟩ := List.mem_filter.mp hmem
    exact ⟨List.mem_range.mp hir, by simpa using hiE⟩

/-- C6: `PerfectAgent.get_move` never propagates a storage failure and never
returns an occupied cell: it returns the stored move only when that move
denotes a currently-empty cell; on a database error, a missing row, a NULL
stored move, or a stored move failing the validity check it emits a
diagnostic and falls back to a random empty cell; and it returns `none`
exactly when the board has no empty cell. -/
theorem c6_perfect_agent_robust (b : List Mark) (p : Mark)
    (db : String → DBResult) (r : Nat) :
    ((perfect_get_move b p db r).1 = none ↔ b.contains E = false) ∧
    (∀ j, (perfect_get_move b p db r).1 = some j → b.getD j E = E) ∧
    (db (agent_generate_state_id b p) = DBResult.err →
      perfect_get_move b p db r = (get_random_move b r, true)) ∧
    (db (agent_generate_state_id b p) = DBResult.missing →
      perfect_get_move b p db r = (get_random_move b r, true)) ∧
    (db (agent_generate_state_id b p) = DBResult.found none →
      perfect_get_move b p db r = (get_random_move b r, true)) ∧
    (∀ m, db (agent_generate_state_id b p) = DBResult.found (some m) →
      ((0 ≤ m ∧ m < (b.length : Int) ∧ b.getD m.toNat E = E) →
        perfect_get_move b p db r = (some m.toNat, false)) ∧
      (¬ (0 ≤ m ∧ m < (b.length : Int) ∧ b.getD m.toNat E = E) →
        perfect_get_move b p db r = (get_random_move b r, true))) := by
  have hrand_none : get_random_move b r = none ↔ b.contains E = false :=
    get_random_move_none_iff b r
  simp only [perfect_get_move]
  rcases hdb : db (agent_generate_state_id b p) with _ | _ | m
  · refine ⟨hrand_none, ?_, fun _ => rfl, ?_, ?_, ?_⟩
    · intro j hj
      exact (get_random_move_empty_cell b r j hj).2
    · intro hc
      exact absurd hc (by simp)
    · intro hc
      exact absurd hc (by simp)
    · intro m hc
      exact absurd hc (by simp)
  · refine ⟨hrand_none, ?_, ?_, fun _ => rfl, ?_, ?_⟩
    · intro j hj
      exact (get_random_move_empty_cell b r j hj).2
    · intro hc
      exact absurd hc (by simp)
    · intro hc
      exact absurd hc (by simp)
    · intro m hc
      exact absurd hc (by simp)
  · rcases m with _ | m
    · refine ⟨hrand_none, ?_, ?_, ?_, fun _ => rfl, ?_⟩
      · intro j hj
        exact (get_random_move_empty_cell b r j hj).2
      · intro hc
        exact absurd hc (by simp)
      · intro hc
        exact absurd hc (by simp)
      · intro m hc
        exact absurd hc (by simp)
    · dsimp only
      by_cases hvalid : 0 ≤ m ∧ m < (b.length : Int) ∧ b.getD m.toNat E = E
      · rw [if_pos hvalid]
        refine ⟨?_, ?_, ?_, ?_, ?_, ?_⟩
        · constructor
          · intro h
            exact absurd h (by simp)
          · intro h
            obtain ⟨hge, hlt, hE⟩ := hvalid
            have hcE : b.contains E = true := (contains_iff_exists b).mpr
              ⟨m.toNat, by omega, hE⟩
            rw [hcE] at h
            exact absurd h (by simp)
        · intro j hj
          obtain rfl : m.toNat = j := Option.some_inj.mp hj
          exact hvalid.2.2
        · intro hc
          exact absurd hc (by simp)
        · intro hc
          exact absurd hc (by simp)
        · intro hc
          exact absurd hc (by simp)
        · intro m1 hc
          obtain rfl : m = m1 := by simpa using hc
          exact ⟨fun _ => rfl, fun hneg => absurd hvalid hneg⟩
      · rw [if_neg hvalid]
        refine ⟨hrand_none, ?_, ?_, ?_, ?_, ?_⟩
        · intro j hj
          exact (get_random_move_empty_cell b r j hj).2
        · intro hc
          exact absurd hc (by simp)
        · intro hc
          exact absurd hc (by simp)
        · intro hc
          exact absurd hc (by simp)
        · intro m1 hc
          obtain rfl : m = m1 := by simpa using hc
          exact ⟨fun hpos => absurd hpos hvalid, fun _ => rfl⟩

/-- Witness for C6 on a miss: the agent falls back with a diagnostic. -/
theorem c6_perfect_agent_robust_witness :
    ((fun _ : String => DBResult.missing)
        (agent_generate_state_id [X, E, E, E, E, E, E, E, E] X) = DBResult.missing) ∧
    perfect_get_move [X, E, E, E, E, E, E, E, E] X
        (fun _ => DBResult.missing) 0 =
      (get_random_move [X, E, E, E, E, E, E, E, E] 0, true) :=
  ⟨rfl, (c6_perfect_agent_robust [X, E, E, E, E, E, E, E, E] X
    (fun _ => DBResult.missing) 0).2.2.2.1 rfl⟩

/-- C7: the builder's `generate_state_id` and the agent's
`_generate_state_id` compute the same canonical key for the same logical
state: mapping empty cells to "-", joining the 9 cell symbols, and
appending "_" and the mover symbol yields identical strings, so a state
written by the builder is looked up under exactly the key it was stored
with. -/
theorem c7_state_id_agreement (b : List Mark) (p : Mark) (hp : p ≠ E) :
    generate_state_id b p = agent_generate_state_id b p := by
  unfold generate_state_id agent_generate_state_id
  have hmap : b.map bCell =
      b.map (fun cell => if aCell cell == "" then "-" else aCell cell) := by
    induction b with
    | nil => rfl
    | cons a l ih =>
      simp only [List.map]
      rw [ih]
      congr 1
      cases a <;> rfl
  rw [hmap]
  have hcell : bCell p = aCell p := by
    cases p with
    | X => rfl
    | O => rfl
    | E => exact absurd rfl hp
  rw [hcell]

/-- Witness for C7 at a concrete board and mover. -/
theorem c7_state_id_agreement_witness :
    ((X : Mark) ≠ E) ∧
    generate_state_id [X, O, E, E, X, E, O, E, E] X =
      agent_generate_state_id [X, O, E, E, X, E, O, E, E] X :=
  ⟨by decide, c7_state_id_agreement [X, O, E, E, X, E, O, E, E] X (by decide)⟩

/-! ## Certificate soundness: shared infrastructure -/

lemma winsB_iff (b : List Mark) (m : Mark) : winsB b m = true ↔ hasLine b m := by
  simp only [winsB, hasLine, isLine, List.any_eq_true, Bool.and_eq_true, beq_iff_eq,
    and_assoc]

lemma xmax_le (a b c : XInt) (h1 : xle a c = true) (h2 : xle b c = true) :
    xle (xmax a b) c = true := by
  unfold xmax
  split
  · exact h2
  · exact h1

lemma xmin_le_l (a b c : XInt) (h : xle a c = true) : xle (xmin a b) c = true := by
  unfold xmin
  split
  · next hlt => exact xle_trans _ _ _ (xle_of_xlt _ _ hlt) h
  · exact h

lemma xmin_le_r (a b c : XInt) (h : xle b c = true) : xle (xmin a b) c = true := by
  unfold xmin
  split
  · exact h
  · next hlt =>
    have : xlt b a = false := by
      rcases hx : xlt b a with _ | _
      · rfl
      · exact absurd hx hlt
    exact xle_trans _ _ _ (xle_of_not_xlt _ _ this) h

lemma xlt_of_not_xle (a b : XInt) (h : xle a b = false) : xlt b a = true := by
  unfold xle at h
  rcases hx : xlt b a with _ | _
  · rw [hx] at h
    simp at h
  · rfl

lemma xmin_le_split (a b c : XInt) (h : xle (xmin a b) c = true) :
    xle a c = true ∨ xle b c = true := by
  unfold xmin at h
  split at h
  · exact Or.inr h
  · exact Or.inl h

lemma xlt_xle_false (a b : XInt) (h1 : xlt a b = true) (h2 : xle b a = true) :
    False := by
  unfold xle at h2
  rw [h1] at h2
  simp at h2

/-- The child `(score, index)` list built inside `evalFuel` at fuel
`fuel' + 1`. -/
def movesF (fuel' : Nat) (board : List Mark) (next_player : Mark) : List (Int × Nat) :=
  (List.range board.length).filterMap (fun i =>
    if board.getD i E == E then
      some ((evalFuel fuel' (board.set i next_player) (other next_player)).1, i)
    else none)

lemma movesF_mem_iff (fuel' : Nat) (b : List Mark) (p : Mark) (x : Int × Nat) :
    x ∈ movesF fuel' b p ↔
      x.2 < b.length ∧ b.getD x.2 E = E ∧
        x.1 = (evalFuel fuel' (b.set x.2 p) (other p)).1 := by
  unfold movesF
  rw [List.mem_filterMap]
  constructor
  · rintro ⟨i, hi, hfi⟩
    split at hfi
    · next hE =>
      obtain rfl := Option.some_inj.mp hfi
      exact ⟨List.mem_range.mp hi, by simpa using hE, rfl⟩
    · exact absurd hfi (by simp)
  · rintro ⟨hlen, hE, hs⟩
    refine ⟨x.2, List.mem_range.mpr hlen, ?_⟩
    simp only [hE, beq_self_eq_true, if_pos]
    rw [← hs]

lemma movesF_pairwise (fuel' : Nat) (b : List Mark) (p : Mark) :
    (movesF fuel' b p).Pairwise (fun x y => x.2 < y.2) := by
  apply pairwise_filterMap_snd _ (List.pairwise_lt_range _)
  intro i x h
  split at h
  · exact (Option.some_inj.mp h) ▸ rfl
  · exact absurd h (by simp)

lemma movesF_ne_nil (fuel' : Nat) (b : List Mark) (p : Mark)
    (hcE : b.contains E = true) : movesF fuel' b p ≠ [] := by
  obtain ⟨i, hi, hE⟩ := (contains_iff_exists b).mp hcE
  intro hnil
  have : ((evalFuel fuel' (b.set i p) (other p)).1, i) ∈ movesF fuel' b p :=
    (movesF_mem_iff fuel' b p _).mpr ⟨hi, hE, rfl⟩
  rw [hnil] at this
  simp at this

/-- Non-terminal unfolding of `evalFuel` at positive fuel. -/
lemma evalFuel_main (fuel' : Nat) (b : List Mark) (p : Mark)
    (hw : check_winner b = none) (hcE : b.contains E = true) :
    evalFuel (fuel' + 1) b p =
      match (if p == X then pyMaxBy (movesF fuel' b p) else pyMinBy (movesF fuel' b p)) with
      | some best => (best.1, some best.2)
      | none => (0, none) := by
  unfold evalFuel
  rw [hw, hcE]
  rfl

/-- Stuck unfolding of `evalFuel` at fuel 0 on a non-terminal board. -/
lemma evalFuel_zero_stuck (b : List Mark) (p : Mark)
    (hw : check_winner b = none) (hcE : b.contains E = true) :
    evalFuel 0 b p = (0, none) := by
  unfold evalFuel
  rw [hw, hcE]
  rfl

lemma evalFuel_winner_X (fuel : Nat) (b : List Mark) (p : Mark)
    (h : check_winner b = some X) : evalFuel fuel b p = (1, none) := by
  unfold evalFuel
  rw [h]
  rfl

lemma evalFuel_winner_O (fuel : Nat) (b : List Mark) (p : Mark)
    (h : check_winner b = some O) : evalFuel fuel b p = (-1, none) := by
  unfold evalFuel
  rw [h]
  rfl

lemma evalFuel_full (fuel : Nat) (b : List Mark) (p : Mark)
    (hw : check_winner b = none) (h : b.contains E = false) :
    evalFuel fuel b p = (0, none) := by
  unfold evalFuel
  rw [hw, h]
  rfl

lemma certX_nonterminal (c : Cert) (b : List Mark) (mover : Mark)
    (hX : winsB b X = false) (hO : winsB b O = false)
    (hcE : b.contains E = true) :
    certX c b mover =
      (match c, mover with
        | Cert.play i c1, O =>
          decide (i < b.length) && (b.getD i E == E) && certX c1 (b.set i O) X
        | Cert.branch cs, X => certXAll cs (allEmpties b) b
        | _, _ => false) := by
  rw [certX.eq_def]
  dsimp only
  rw [hX, hO, hcE]
  rfl

lemma certO_nonterminal (c : Cert) (b : List Mark) (mover : Mark)
    (hX : winsB b X = false) (hO : winsB b O = false)
    (hcE : b.contains E = true) :
    certO c b mover =
      (match c, mover with
        | Cert.play i c1, X =>
          decide (i < b.length) && (b.getD i E == E) && certO c1 (b.set i X) O
        | Cert.branch cs, O => certOAll cs (allEmpties b) b
        | _, _ => false) := by
  rw [certO.eq_def]
  dsimp only
  rw [hO, hX, hcE]
  rfl

lemma not_hasLine_of_winsB_false (b : List Mark) (m : Mark)
    (h : winsB b m = false) : ¬ hasLine b m := by
  intro hl
  rw [(winsB_iff b m).mpr hl] at h
  exact absurd h (by simp)

mutual

/-- Soundness of an X-cannot-win certificate against the builder's
evaluation: a certified state has minimax value at most 0 at every fuel. -/
lemma certX_sound_eval (c : Cert) : ∀ (fuel : Nat) (b : List Mark) (mover : Mark),
    certX c b mover = true → (evalFuel fuel b mover).1 ≤ 0 := by
  intro fuel b mover h
  rcases hX : winsB b X with _ | _
  · rcases hO : winsB b O with _ | _
    · have hw : check_winner b = none := (check_winner_eq_none_iff b).mpr
        ⟨not_hasLine_of_winsB_false b X hX, not_hasLine_of_winsB_false b O hO⟩
      rcases hcE : b.contains E with _ | _
      · rw [evalFuel_full fuel b mover hw hcE]
      · rcases fuel with _ | fuel1
        · rw [evalFuel_zero_stuck b mover hw hcE]
        · rw [certX_nonterminal c b mover hX hO hcE] at h
          rcases c with _ | ⟨j, c1⟩ | cs
          · rcases mover with _ | _ | _ <;> simp at h
          · rcases mover with _ | _ | _
            · simp at h
            · rw [Bool.and_eq_true, Bool.and_eq_true] at h
              obtain ⟨⟨hj1, hj2⟩, hc1⟩ := h
              have hjlen : j < b.length := by simpa using hj1
              have hjE : b.getD j E = E := by simpa using hj2
              have hchild := certX_sound_eval c1 fuel1 (b.set j O) X hc1
              obtain ⟨r, hr, hmem, hall, -⟩ := pyMinBy_char (movesF fuel1 b O)
                (movesF_pairwise fuel1 b O) (movesF_ne_nil fuel1 b O hcE)
              have heq : evalFuel (fuel1 + 1) b O = (r.1, some r.2) := by
                rw [evalFuel_main fuel1 b O hw hcE]
                have h2 : (match pyMinBy (movesF fuel1 b O) with
                    | some best => (best.1, some best.2)
                    | none => ((0 : Int), (none : Option Nat))) = (r.1, some r.2) := by
                  rw [hr]
                exact h2
              have hjmem : ((evalFuel fuel1 (b.set j O) (other O)).1, j) ∈ movesF fuel1 b O :=
                (movesF_mem_iff fuel1 b O _).mpr ⟨hjlen, hjE, rfl⟩
              have hrj := hall _ hjmem
              rw [heq]
              have hoX : other O = X := rfl
              rw [hoX] at hrj
              exact le_trans hrj hchild
            · simp at h
          · rcases mover with _ | _ | _
            · have hlock := certXAll_sound_eval cs (allEmpties b) b h
              obtain ⟨r, hr, hmem, -, -⟩ := pyMaxBy_char (movesF fuel1 b X)
                (movesF_pairwise fuel1 b X) (movesF_ne_nil fuel1 b X hcE)
              obtain ⟨hrlen, hrE, hrval⟩ := (movesF_mem_iff fuel1 b X r).mp hmem
              have hin : r.2 ∈ allEmpties b :=
                List.mem_filter.mpr ⟨List.mem_range.mpr hrlen, by simpa using hrE⟩
              have hchild := hlock r.2 hin fuel1
              have heq : evalFuel (fuel1 + 1) b X = (r.1, some r.2) := by
                rw [evalFuel_main fuel1 b X hw hcE]
                have h2 : (match pyMaxBy (movesF fuel1 b X) with
                    | some best => (best.1, some best.2)
                    | none => ((0 : Int), (none : Option Nat))) = (r.1, some r.2) := by
                  rw [hr]
                exact h2
              rw [heq]
              have hoO : other X = O := rfl
              rw [hoO] at hrval
              exact hrval ▸ hchild
            · simp at h
            · simp at h
    · have hw : check_winner b = some O := check_winner_eq_some b O (Or.inr rfl)
        ((winsB_iff b O).mp hO) (not_hasLine_of_winsB_false b X hX)
      rw [evalFuel_winner_O fuel b mover hw]
      simp
  · rw [certX.eq_def] at h
    dsimp only at h
    rw [hX] at h
    simp at h

/-- Lockstep soundness over an X node's children. -/
lemma certXAll_sound_eval (cs : Certs) : ∀ (is : List Nat) (b : List Mark),
    certXAll cs is b = true → ∀ i ∈ is, ∀ fuel, (evalFuel fuel (b.set i X) O).1 ≤ 0 := by
  intro is b h i hi fuel
  rcases cs with _ | ⟨c, cs1⟩
  · rcases is with _ | ⟨i1, is1⟩
    · simp at hi
    · rw [certXAll.eq_def] at h
      simp at h
  · rcases is with _ | ⟨i1, is1⟩
    · simp at hi
    · rw [certXAll.eq_def] at h
      rw [Bool.and_eq_true] at h
      rcases List.mem_cons.mp hi with rfl | hi1
      · exact certX_sound_eval c fuel (b.set i X) O h.1
      · exact certXAll_sound_eval cs1 is1 b h.2 i hi1 fuel

end

mutual

/-- Soundness of an O-cannot-win certificate against the builder's
evaluation: a certified state has minimax value at least 0 at every fuel. -/
lemma certO_sound_eval (c : Cert) : ∀ (fuel : Nat) (b : List Mark) (mover : Mark),
    certO c b mover = true → 0 ≤ (evalFuel fuel b mover).1 := by
  intro fuel b mover h
  rcases hO : winsB b O with _ | _
  · rcases hX : winsB b X with _ | _
    · have hw : check_winner b = none := (check_winner_eq_none_iff b).mpr
        ⟨not_hasLine_of_winsB_false b X hX, not_hasLine_of_winsB_false b O hO⟩
      rcases hcE : b.contains E with _ | _
      · rw [evalFuel_full fuel b mover hw hcE]
      · rcases fuel with _ | fuel1
        · rw [evalFuel_zero_stuck b mover hw hcE]
        · rw [certO_nonterminal c b mover hX hO hcE] at h
          rcases c with _ | ⟨j, c1⟩ | cs
          · rcases mover with _ | _ | _ <;> simp at h
          · rcases mover with _ | _ | _
            · rw [Bool.and_eq_true, Bool.and_eq_true] at h
              obtain ⟨⟨hj1, hj2⟩, hc1⟩ := h
              have hjlen : j < b.length := by simpa using hj1
              have hjE : b.getD j E = E := by simpa using hj2
              have hchild := certO_sound_eval c1 fuel1 (b.set j X) O hc1
              obtain ⟨r, hr, hmem, hall, -⟩ := pyMaxBy_char (movesF fuel1 b X)
                (movesF_pairwise fuel1 b X) (movesF_ne_nil fuel1 b X hcE)
              have heq : evalFuel (fuel1 + 1) b X = (r.1, some r.2) := by
                rw [evalFuel_main fuel1 b X hw hcE]
                have h2 : (match pyMaxBy (movesF fuel1 b X) with
                    | some best => (best.1, some best.2)
                    | none => ((0 : Int), (none : Option Nat))) = (r.1, some r.2) := by
                  rw [hr]
                exact h2
              have hjmem : ((evalFuel fuel1 (b.set j X) (other X)).1, j) ∈ movesF fuel1 b X :=
                (movesF_mem_iff fuel1 b X _).mpr ⟨hjlen, hjE, rfl⟩
              have hrj := hall _ hjmem
              rw [heq]
              have hoO : other X = O := rfl
              rw [hoO] at hrj
              exact le_trans hchild hrj
            · simp at h
            · simp at h
          · rcases mover with _ | _ | _
            · simp at h
            · have hlock := certOAll_sound_eval cs (allEmpties b) b h
              obtain ⟨r, hr, hmem, -, -⟩ := pyMinBy_char (movesF fuel1 b O)
                (movesF_pairwise fuel1 b O) (movesF_ne_nil fuel1 b O hcE)
              obtain ⟨hrlen, hrE, hrval⟩ := (movesF_mem_iff fuel1 b O r).mp hmem
              have hin : r.2 ∈ allEmpties b :=
                List.mem_filter.mpr ⟨List.mem_range.mpr hrlen, by simpa using hrE⟩
              have hchild := hlock r.2 hin fuel1
              have heq : evalFuel (fuel1 + 1) b O = (r.1, some r.2) := by
                rw [evalFuel_main fuel1 b O hw hcE]
                have h2 : (match pyMinBy (movesF fuel1 b O) with
                    | some best => (best.1, some best.2)
                    | none => ((0 : Int), (none : Option Nat))) = (r.1, some r.2) := by
                  rw [hr]
                exact h2
              rw [heq]
              have hoX : other O = X := rfl
              rw [hoX] at hrval
              exact hrval ▸ hchild
            · simp at h
    · have hw : check_winner b = some X := check_winner_eq_some b X (Or.inl rfl)
        ((winsB_iff b X).mp hX) (not_hasLine_of_winsB_false b O hO)
      rw [evalFuel_winner_X fuel b mover hw]
      simp
  · rw [certO.eq_def] at h
    dsimp only at h
    rw [hO] at h
    simp at h

/-- Lockstep soundness over an O node's children. -/
lemma certOAll_sound_eval (cs : Certs) : ∀ (is : List Nat) (b : List Mark),
    certOAll cs is b = true → ∀ i ∈ is, ∀ fuel, 0 ≤ (evalFuel fuel (b.set i O) X).1 := by
  intro is b h i hi fuel
  rcases cs with _ | ⟨c, cs1⟩
  · rcases is with _ | ⟨i1, is1⟩
    · simp at hi
    · rw [certOAll.eq_def] at h
      simp at h
  · rcases is with _ | ⟨i1, is1⟩
    · simp at hi
    · rw [certOAll.eq_def] at h
      rw [Bool.and_eq_true] at h
      rcases List.mem_cons.mp hi with rfl | hi1
      · exact certO_sound_eval c fuel (b.set i O) X h.1
      · exact certOAll_sound_eval cs1 is1 b h.2 i hi1 fuel

end

/-! ## Certificate soundness against the agent search (for C5) -/

lemma xle_fin_of_le (a b : Int) (h : a ≤ b) : xle (XInt.fin a) (XInt.fin b) = true := by
  simp [xle, xlt]
  omega

lemma xle_ninf (a : XInt) : xle XInt.ninf a = true := by
  cases a <;> rfl

lemma certX_winsB_X (c : Cert) (b : List Mark) (mover : Mark)
    (h : certX c b mover = true) : winsB b X = false := by
  rcases hX : winsB b X with _ | _
  · rfl
  · rw [certX.eq_def] at h
    dsimp only at h
    rw [hX] at h
    simp at h

lemma winsB_false_of_not (b : List Mark) (m : Mark) (h : ¬ hasLine b m) :
    winsB b m = false := by
  rcases hw : winsB b m with _ | _
  · rfl
  · exact absurd ((winsB_iff b m).mp hw) h

/-- From a lockstep certificate list, a certificate (no larger than the list)
for each covered child. -/
lemma certXAll_extract : ∀ (cs : Certs) (is : List Nat) (b : List Mark),
    certXAll cs is b = true → ∀ i ∈ is,
      ∃ c, sizeOf c ≤ sizeOf cs ∧ certX c (b.set i X) O = true
  | Certs.nil, [], _, _, i, hi => absurd hi (List.not_mem_nil i)
  | Certs.nil, _ :: _, b, h, i, hi => by
    rw [certXAll.eq_def] at h
    simp at h
  | Certs.cons c cs1, [], _, _, i, hi => absurd hi (List.not_mem_nil i)
  | Certs.cons c cs1, i1 :: is1, b, h, i, hi => by
    rw [certXAll.eq_def] at h
    rw [Bool.and_eq_true] at h
    rcases List.mem_cons.mp hi with rfl | hi1
    · exact ⟨c, by simp; omega, h.1⟩
    · obtain ⟨c2, hs, hc⟩ := certXAll_extract cs1 is1 b h.2 i hi1
      refine ⟨c2, le_trans hs ?_, hc⟩
      simp

/-- The minimize loop never raises `best`. -/
lemma minLoop_le_best (f : Nat) : ∀ (idxs : List Nat) (b : List Mark) (d : Nat)
    (α β : XInt) (p o : Mark) (best : XInt),
    xle (minLoop f idxs b d α β p o best).1 best = true := by
  intro idxs
  induction idxs with
  | nil =>
    intro b d α β p o best
    rw [minLoop_nil]
    exact xle_refl best
  | cons i rest ih =>
    intro b d α β p o best
    rcases hE : (b.getD i E == E) with _ | _
    · rw [minLoop_skip f i rest b d α β p o best hE]
      exact ih b d α β p o best
    · rw [minLoop_hit f i rest b d α β p o best hE]
      split
      · exact xmin_le_l _ _ _ (xle_refl best)
      · exact xle_trans _ _ _ (ih _ _ _ _ _ _ _) (xmin_le_l _ _ _ (xle_refl best))

/-- If every legal child of a maximize node has value at most 0 (for any
admissible bounds), the maximize loop's fail-soft result stays at most 0. -/
lemma maxLoop_le_aux (f : Nat) : ∀ (idxs : List Nat) (b : List Mark) (d : Nat)
    (α β best : XInt),
    (∀ i ∈ idxs, b.getD i E = E → ∀ α1 β1, xle α1 (XInt.fin 0) = true →
      xlt α1 β1 = true →
      xle (minimaxS f (b.set i X) (d + 1) false α1 β1 X O).1 (XInt.fin 0) = true) →
    xle α (XInt.fin 0) = true → xlt α β = true → xle best (XInt.fin 0) = true →
    xle (maxLoop f idxs b d α β X O best).1 (XInt.fin 0) = true := by
  intro idxs
  induction idxs with
  | nil =>
    intro b d α β best H hα hαβ hbest
    rw [maxLoop_nil]
    exact hbest
  | cons i rest ih =>
    intro b d α β best H hα hαβ hbest
    rcases hE : (b.getD i E == E) with _ | _
    · rw [maxLoop_skip f i rest b d α β X O best hE]
      exact ih b d α β best (fun i2 h2 => H i2 (List.mem_cons_of_mem i h2)) hα hαβ hbest
    · have hiE : b.getD i E = E := by simpa using hE
      have hv := H i (List.mem_cons_self i rest) hiE α β hα hαβ
      have hbest1 : xle (xmax best (minimaxS f (b.set i X) (d + 1) false α β X O).1)
          (XInt.fin 0) = true := xmax_le _ _ _ hbest hv
      rw [maxLoop_hit f i rest b d α β X O best hE]
      rcases hbr : xle β (xmax α (xmax best (minimaxS f (b.set i X) (d + 1) false α β X O).1))
        with _ | _
      · rw [if_neg Bool.false_ne_true]
        have hb3 : ((minimaxS f (b.set i X) (d + 1) false α β X O).2).set i E = b := by
          rw [minimaxS_board, set_set_same, set_of_getD_eq b i hiE]
        rw [hb3]
        refine ih b d _ β _ (fun i2 h2 => H i2 (List.mem_cons_of_mem i h2)) ?_ ?_ ?_
        · exact xmax_le _ _ _ hα hbest1
        · exact xlt_of_not_xle _ _ hbr
        · exact hbest1
      · rw [if_pos rfl]
        exact hbest1

/-- If one legal child of a minimize node carries a certificate bounding its
value by 0 (for any admissible bounds), the minimize loop's result — on every
exit path, the alpha break included — is at most 0. -/
lemma minLoop_le_aux (f : Nat) (b : List Mark) (d : Nat) (j : Nat)
    (hjE : b.getD j E = E)
    (HC : ∀ α1 β1, xle α1 (XInt.fin 0) = true → xlt α1 β1 = true →
      xle (minimaxS f (b.set j O) (d + 1) true α1 β1 X O).1 (XInt.fin 0) = true) :
    ∀ (idxs : List Nat) (α β best : XInt), j ∈ idxs →
      xle α (XInt.fin 0) = true → xlt α β = true →
      xle (minLoop f idxs b d α β X O best).1 (XInt.fin 0) = true := by
  intro idxs
  induction idxs with
  | nil =>
    intro α β best hj hα hαβ
    exact absurd hj (List.not_mem_nil j)
  | cons i rest ih =>
    intro α β best hj hα hαβ
    rcases hE : (b.getD i E == E) with _ | _
    · have hne : j ≠ i := by
        intro hji
        rw [hji] at hjE
        rw [hjE] at hE
        simp at hE
      have hjr : j ∈ rest := by
        rcases List.mem_cons.mp hj with h1 | h1
        · exact absurd h1 hne
        · exact h1
      rw [minLoop_skip f i rest b d α β X O best hE]
      exact ih α β best hjr hα hαβ
    · have hiE : b.getD i E = E := by simpa using hE
      rw [minLoop_hit f i rest b d α β X O best hE]
      have hb3 : ((minimaxS f (b.set i O) (d + 1) true α β X O).2).set i E = b := by
        rw [minimaxS_board, set_set_same, set_of_getD_eq b i hiE]
      by_cases hij : i = j
      · subst hij
        have hv := HC α β hα hαβ
        have hbest1 : xle (xmin best (minimaxS f (b.set i O) (d + 1) true α β X O).1)
            (XInt.fin 0) = true := xmin_le_r _ _ _ hv
        rcases hbr : xle (xmin β (xmin best (minimaxS f (b.set i O) (d + 1) true α β X O).1)) α
          with _ | _
        · rw [if_neg Bool.false_ne_true, hb3]
          exact xle_trans _ _ _ (minLoop_le_best f rest b d α _ X O _) hbest1
        · rw [if_pos rfl]
          exact hbest1
      · have hjr : j ∈ rest := by
          rcases List.mem_cons.mp hj with h1 | h1
          · exact absurd h1.symm hij
          · exact h1
        rcases hbr : xle (xmin β (xmin best (minimaxS f (b.set i O) (d + 1) true α β X O).1)) α
          with _ | _
        · rw [if_neg Bool.false_ne_true, hb3]
          exact ih α _ _ hjr hα (xlt_of_not_xle _ _ hbr)
        · rw [if_pos rfl]
          rcases xmin_le_split _ _ _ hbr with hba | hb1
          · exact (xlt_xle_false α β hαβ hba).elim
          · exact xle_trans _ _ _ hb1 hα

/-- Soundness of X-cannot-win certificates against `minimaxS` for the
searching mark X: at a certified node the fail-soft alpha-beta value is at
most 0, for every fuel, depth consistent with the empty-cell count, and
admissible bounds `alpha <= 0 < beta`. -/
lemma certX_mm : ∀ (n : Nat) (c : Cert), sizeOf c ≤ n →
    (∀ (f : Nat) (b : List Mark) (d : Nat) (α β : XInt),
      certX c b O = true → xle α (XInt.fin 0) = true → xlt α β = true →
      d + b.count E ≤ 10 →
      xle (minimaxS f b d false α β X O).1 (XInt.fin 0) = true) ∧
    (∀ (f : Nat) (b : List Mark) (d : Nat) (α β : XInt),
      certX c b X = true → xle α (XInt.fin 0) = true → xlt α β = true →
      d + b.count E ≤ 10 →
      xle (minimaxS f b d true α β X O).1 (XInt.fin 0) = true) := by
  intro n
  induction n with
  | zero =>
    intro c hc
    refine absurd hc ?_
    rcases c with _ | ⟨j, c1⟩ | cs <;> simp
  | succ n ih =>
    intro c hc
    constructor
    · intro f b d α β hcert hα hαβ hd
      have hX : winsB b X = false := certX_winsB_X c b O hcert
      have hnX : ¬ hasLine b X := by
        intro hl
        rw [(winsB_iff b X).mpr hl] at hX
        exact absurd hX (by simp)
      obtain ⟨e1, e2, e3⟩ := evaluateBoard_cases b X O (Or.inl ⟨rfl, rfl⟩)
      by_cases hO : hasLine b O
      · rw [minimaxS_leafm10 f b d false α β X O (e2 hO hnX)]
        exact xle_fin_of_le _ _ (by omega)
      · have he0 := e3 hnX hO
        rcases hml : movesLeft b with _ | _
        · rw [minimaxS_draw f b d false α β X O he0 hml]
          exact xle_refl _
        · rcases f with _ | f1
          · rw [minimaxS_stuck b d false α β X O he0 hml]
            exact xle_refl _
          · rw [minimaxS_rec f1 b d false α β X O he0 hml,
              if_neg Bool.false_ne_true]
            have hOw : winsB b O = false := winsB_false_of_not b O hO
            have hcE : b.contains E = true := hml
            rw [certX_nonterminal c b O hX hOw hcE] at hcert
            rcases c with _ | ⟨j, c1⟩ | cs
            · simp at hcert
            · rw [Bool.and_eq_true, Bool.and_eq_true] at hcert
              obtain ⟨⟨hj1, hj2⟩, hc1⟩ := hcert
              have hjlen : j < b.length := by simpa using hj1
              have hjE : b.getD j E = E := by simpa using hj2
              have hszc : sizeOf c1 ≤ n := by
                simp at hc
                omega
              have HC : ∀ α1 β1, xle α1 (XInt.fin 0) = true → xlt α1 β1 = true →
                  xle (minimaxS f1 (b.set j O) (d + 1) true α1 β1 X O).1
                    (XInt.fin 0) = true := by
                intro α1 β1 h1 h2
                refine (ih c1 hszc).2 f1 (b.set j O) (d + 1) α1 β1 hc1 h1 h2 ?_
                have := count_set_succ b j O hjlen hjE (by simp)
                omega
              exact minLoop_le_aux f1 b d j hjE HC (List.range b.length) α β XInt.pinf
                (List.mem_range.mpr hjlen) hα hαβ
            · simp at hcert
    · intro f b d α β hcert hα hαβ hd
      have hX : winsB b X = false := certX_winsB_X c b X hcert
      have hnX : ¬ hasLine b X := by
        intro hl
        rw [(winsB_iff b X).mpr hl] at hX
        exact absurd hX (by simp)
      obtain ⟨e1, e2, e3⟩ := evaluateBoard_cases b X O (Or.inl ⟨rfl, rfl⟩)
      by_cases hO : hasLine b O
      · rw [minimaxS_leafm10 f b d true α β X O (e2 hO hnX)]
        exact xle_fin_of_le _ _ (by omega)
      · have he0 := e3 hnX hO
        rcases hml : movesLeft b with _ | _
        · rw [minimaxS_draw f b d true α β X O he0 hml]
          exact xle_refl _
        · rcases f with _ | f1
          · rw [minimaxS_stuck b d true α β X O he0 hml]
            exact xle_refl _
          · rw [minimaxS_rec f1 b d true α β X O he0 hml, if_pos rfl]
            have hOw : winsB b O = false := winsB_false_of_not b O hO
            have hcE : b.contains E = true := hml
            rw [certX_nonterminal c b X hX hOw hcE] at hcert
            rcases c with _ | ⟨j, c1⟩ | cs
            · simp at hcert
            · simp at hcert
            · have hsz : sizeOf cs ≤ n := by
                simp at hc
                omega
              have H : ∀ i ∈ List.range b.length, b.getD i E = E →
                  ∀ α1 β1, xle α1 (XInt.fin 0) = true → xlt α1 β1 = true →
                  xle (minimaxS f1 (b.set i X) (d + 1) false α1 β1 X O).1
                    (XInt.fin 0) = true := by
                intro i hi hiE α1 β1 h1 h2
                have hiA : i ∈ allEmpties b := List.mem_filter.mpr ⟨hi, by simp only [hiE, beq_self_eq_true]⟩
                obtain ⟨c2, hc2s, hc2⟩ := certXAll_extract cs (allEmpties b) b hcert i hiA
                refine (ih c2 (le_trans hc2s hsz)).1 f1 (b.set i X) (d + 1) α1 β1 hc2 h1 h2 ?_
                have hilen : i < b.length := List.mem_range.mp hi
                have := count_set_succ b i X hilen hiE (by simp)
                omega
              exact maxLoop_le_aux f1 (List.range b.length) b d α β XInt.ninf H hα hαβ
                (xle_ninf _)

set_option maxHeartbeats 10000000 in
/-- The X-side draw certificate checks on the empty board with X to move. -/
lemma drawLow_ok : certX drawLowCert [E, E, E, E, E, E, E, E, E] X = true := by decide

set_option maxHeartbeats 10000000 in
/-- The O-side draw certificate checks on the empty board with X to move. -/
lemma drawHigh_ok : certO drawHighCert [E, E, E, E, E, E, E, E, E] X = true := by decide

/-- C5: from the empty board with X to move, mutual optimal play is a draw:
the builder's `evaluate_state` returns score 0, and the agent's search assigns
every root candidate move a value at most 0, so no root move from the empty
board has a winning (positive-forced) value. -/
theorem c5_empty_board_draw :
    (evaluate_state [E, E, E, E, E, E, E, E, E] X).1 = 0 ∧
    (List.range 9).all (fun i =>
      xle (rootVal [E, E, E, E, E, E, E, E, E] X i) (XInt.fin 0)) = true := by
  constructor
  · have h1 : (evalFuel 9 [E, E, E, E, E, E, E, E, E] X).1 ≤ 0 :=
      certX_sound_eval drawLowCert 9 [E, E, E, E, E, E, E, E, E] X drawLow_ok
    have h2 : (0 : Int) ≤ (evalFuel 9 [E, E, E, E, E, E, E, E, E] X).1 :=
      certO_sound_eval drawHighCert 9 [E, E, E, E, E, E, E, E, E] X drawHigh_ok
    have he : evaluate_state [E, E, E, E, E, E, E, E, E] X =
        evalFuel 9 [E, E, E, E, E, E, E, E, E] X := rfl
    rw [he]
    omega
  · rw [List.all_eq_true]
    intro i hi
    have hilen : i < 9 := List.mem_range.mp hi
    have hroot := drawLow_ok
    have hX0 : winsB [E, E, E, E, E, E, E, E, E] X = false := by decide
    have hO0 : winsB [E, E, E, E, E, E, E, E, E] O = false := by decide
    have hc0 : ([E, E, E, E, E, E, E, E, E] : List Mark).contains E = true := by decide
    rw [certX_nonterminal drawLowCert [E, E, E, E, E, E, E, E, E] X hX0 hO0 hc0] at hroot
    rw [show drawLowCert = Cert.branch drawLowCs from rfl] at hroot
    dsimp only at hroot
    have hAE : allEmpties [E, E, E, E, E, E, E, E, E] = [0, 1, 2, 3, 4, 5, 6, 7, 8] := by
      decide
    rw [hAE] at hroot
    have hiA : i ∈ [0, 1, 2, 3, 4, 5, 6, 7, 8] := by
      simp
      omega
    obtain ⟨c2, hc2s, hc2⟩ :=
      certXAll_extract drawLowCs [0, 1, 2, 3, 4, 5, 6, 7, 8] [E, E, E, E, E, E, E, E, E]
        hroot i hiA
    have hgetD : ([E, E, E, E, E, E, E, E, E] : List Mark).getD i E = E := by
      rcases i with _ | _ | _ | _ | _ | _ | _ | _ | _ | i <;> rfl
    have hcount := count_set_succ [E, E, E, E, E, E, E, E, E] i X hilen hgetD (by simp)
    have hc9 : List.count E ([E, E, E, E, E, E, E, E, E] : List Mark) = 9 := by decide
    show xle (rootVal [E, E, E, E, E, E, E, E, E] X i) (XInt.fin 0) = true
    have hr : rootVal [E, E, E, E, E, E, E, E, E] X i =
        (minimaxS 9 (([E, E, E, E, E, E, E, E, E] : List Mark).set i X) 0 false
          XInt.ninf XInt.pinf X O).1 := rfl
    rw [hr]
    exact (certX_mm (sizeOf c2) c2 (le_refl _)).1 9 _ 0 XInt.ninf XInt.pinf hc2
      (by decide) (by decide) (by omega)

end TTT
